import Mathlib

/-!
# Linkedin-Client: `src/linkedin.js`

A shallow embedding of the orchestrator `getCompanyOrPeopleDetails`, of the
classifier `isCompanyOrSchoolPage` and of the numeric field parsing done by
`scrapCompanyPage`, followed by the properties established about them.

JavaScript values are modelled by `JSVal`; the collaborators of the
orchestrator (OAuth client, people API, browser driver, the two page
extractions) are the fields of `Env`; a run yields the list of collaborator
calls it made (`Event`) together with the value it returned or the exception
it raised.
-/

namespace Linkedin

/-! ## JavaScript values -/

/-- JavaScript values as far as this module handles them: JSON data coming
from the API, the object literals built by the extractors, and built-in
methods met on a prototype (`fn`). `num` stands for an integer-valued number,
`nan` for `NaN`. -/
inductive JSVal where
  | undefined
  | null
  | nan
  | bool (b : Bool)
  | num (n : Int)
  | str (s : String)
  | arr (xs : List JSVal)
  | obj (fields : List (String × JSVal))
  | fn (name : String)

/-- Exceptions: a `TypeError` raised by the language itself, the `Error`
raised by `init`, and an exception raised by a collaborator (identified by a
number). -/
inductive Exn where
  | typeError (what : String)
  | error (message : String)
  | thrown (id : Nat)
  deriving DecidableEq, Repr

/-- The fields of a plain object. -/
abbrev Obj := List (String × JSVal)

/-- Reading `o[k]` on a plain object: the own property, else `undefined`. -/
def getField : Obj → String → JSVal
  | [], _ => .undefined
  | (k', v) :: rest, k => if k' = k then v else getField rest k

/-- Writing `o[k] = v` on a plain object: the own property is replaced where it
exists and added otherwise. -/
def setField : Obj → String → JSVal → Obj
  | [], k, v => [(k, v)]
  | (k', v') :: rest, k, v => if k' = k then (k, v) :: rest else (k', v') :: setField rest k v

/-- Whether a plain object has the own property `k`. -/
def hasField : Obj → String → Bool
  | [], _ => false
  | (k', _) :: rest, k => k' = k || hasField rest k

/-- The method names of `Array.prototype` (ECMAScript 2015, 22.1.3). -/
def arrayPrototype : List String :=
  ["concat", "copyWithin", "entries", "every", "fill", "filter", "find", "findIndex",
   "forEach", "indexOf", "join", "keys", "lastIndexOf", "map", "pop", "push", "reduce",
   "reduceRight", "reverse", "shift", "slice", "some", "sort", "splice", "toLocaleString",
   "toString", "unshift", "values"]

/-- The method names of `Object.prototype`. -/
def objectPrototype : List String :=
  ["constructor", "hasOwnProperty", "isPrototypeOf", "propertyIsEnumerable",
   "toLocaleString", "toString", "valueOf"]

/-- An array index written as a property key: `0`, or digits without a
leading zero. -/
def indexOfKey (k : String) : Option Nat :=
  match k.data with
  | [] => none
  | ['0'] => some 0
  | c :: cs =>
    if c = '0' then none
    else if (c :: cs).all Char.isDigit then
      some ((c :: cs).foldl (fun acc d => 10 * acc + (d.toNat - '0'.toNat)) 0)
    else none

/-- The JavaScript test `if (v)`. -/
def truthy : JSVal → Bool
  | .undefined => false
  | .null => false
  | .nan => false
  | .bool b => b
  | .num n => n != 0
  | .str s => s != ""
  | .arr _ => true
  | .obj _ => true
  | .fn _ => true

/-- Reading `v[k]`. On `undefined` and `null` it raises a `TypeError`; on an
array the elements, `length` and the inherited methods of `Array.prototype`
are found, so that `[...]['values']` is the built-in method
`Array.prototype.values` and not `undefined`. Inherited properties are modelled
for arrays and plain objects; the keys this module reads (`values`, `0`,
`company`, `id`, `linkedinUrl`) are on no other prototype. -/
def getProp (v : JSVal) (k : String) : Except Exn JSVal :=
  match v with
  | .undefined => .error (.typeError ("Cannot read property " ++ k ++ " of undefined"))
  | .null => .error (.typeError ("Cannot read property " ++ k ++ " of null"))
  | .obj fields =>
    if hasField fields k then .ok (getField fields k)
    else if k ∈ objectPrototype then .ok (.fn k) else .ok .undefined
  | .arr xs =>
    match indexOfKey k with
    | some i => .ok (xs.getD i .undefined)
    | none =>
      if k = "length" then .ok (.num xs.length)
      else if k ∈ arrayPrototype ∨ k ∈ objectPrototype then .ok (.fn k) else .ok .undefined
  | .str s =>
    match indexOfKey k with
    | some i => .ok (match s.data.get? i with
        | some c => .str (String.mk [c])
        | none => .undefined)
    | none => if k = "length" then .ok (.num s.length) else .ok .undefined
  | .fn name => if k = "name" then .ok (.str name) else .ok .undefined
  | .nan => .ok .undefined
  | .bool _ => .ok .undefined
  | .num _ => .ok .undefined

/-- The conversion of a value to a string, as done by `+` with a string operand
and by `==` against a string. A plain object gives `[object Object]` through
`Object.prototype.toString`; when it has an own property `toString` (never
callable in data) no conversion exists and a `TypeError` is raised. An array is
joined with commas, `null` and `undefined` elements giving the empty string. -/
def toStr : JSVal → Except Exn String
  | .undefined => .ok "undefined"
  | .null => .ok "null"
  | .nan => .ok "NaN"
  | .bool b => .ok (if b then "true" else "false")
  | .num n => .ok (if n < 0 then "-" ++ Nat.repr n.natAbs else Nat.repr n.natAbs)
  | .str s => .ok s
  | .fn name => .ok ("function " ++ name ++ "() \x7b [native code] \x7d")
  | .obj fields =>
    if hasField fields "toString" then
      .error (.typeError "Cannot convert object to primitive value")
    else .ok "[object Object]"
  | .arr xs => join xs
where
  /-- The body of `Array.prototype.join`. -/
  join : List JSVal → Except Exn String
    | [] => .ok ""
    | [x] => elem x
    | x :: y :: rest =>
      match elem x, join (y :: rest) with
      | .ok a, .ok b => .ok (a ++ "," ++ b)
      | .error e, _ => .error e
      | .ok _, .error e => .error e
  /-- One element of a joined array. -/
  elem : JSVal → Except Exn String
    | .undefined => .ok ""
    | .null => .ok ""
    | .nan => .ok "NaN"
    | .bool b => .ok (if b then "true" else "false")
    | .num n => .ok (if n < 0 then "-" ++ Nat.repr n.natAbs else Nat.repr n.natAbs)
    | .str s => .ok s
    | .fn name => .ok ("function " ++ name ++ "() \x7b [native code] \x7d")
    | .obj fields =>
      if hasField fields "toString" then
        .error (.typeError "Cannot convert object to primitive value")
      else .ok "[object Object]"
    | .arr xs => join xs

/-- The comparison `v == w` against a string literal `w` that does not denote a
number, as both literals compared in this module (`'private'` and
`'Internal API server error'`): numbers and booleans are then never equal to
it, a string is equal when it is the same string, an object or array when its
string conversion is. -/
def looseEqWord (v : JSVal) (w : String) : Except Exn Bool :=
  match v with
  | .undefined => .ok false
  | .null => .ok false
  | .nan => .ok false
  | .bool _ => .ok false
  | .num _ => .ok false
  | .str s => .ok (s = w)
  | .arr xs => (toStr (.arr xs)).map (fun s => decide (s = w))
  | .obj fields => (toStr (.obj fields)).map (fun s => decide (s = w))
  | .fn name => (toStr (.fn name)).map (fun s => decide (s = w))

/-! ## Strings -/

/-- The position of the first occurrence of `pat` in `s` counted from
position `i` of the whole string, or `-1`. -/
def indexOfFrom (pat : List Char) : List Char → Nat → Int
  | [], i => if pat.isEmpty then (i : Int) else -1
  | c :: cs, i => if pat.isPrefixOf (c :: cs) then (i : Int) else indexOfFrom pat cs (i + 1)

/-- The method `String.prototype.indexOf(searchString)`. -/
def strIndexOf (s pat : String) : Int := indexOfFrom pat.data s.data 0

/-- Replacing the first occurrence of `pat` by `rep`, all later occurrences
staying in place. -/
def replaceFirst (pat rep : List Char) : List Char → List Char
  | [] => if pat.isEmpty then rep else []
  | c :: cs =>
    if pat.isPrefixOf (c :: cs) then rep ++ (c :: cs).drop pat.length
    else c :: replaceFirst pat rep cs

/-- The method `String.prototype.replace(pattern, replacement)` called with a
string pattern: only the first occurrence is replaced. (The replacement strings
of this module are empty, so no `$` pattern is involved.) -/
def strReplace (s pat rep : String) : String := ⟨replaceFirst pat.data rep.data s.data⟩

/-- White space and line terminators of ECMAScript. -/
def isJsSpace (c : Char) : Bool :=
  c.toNat ∈ [0x09, 0x0A, 0x0B, 0x0C, 0x0D, 0x20, 0xA0, 0x1680, 0x2000, 0x2001, 0x2002,
    0x2003, 0x2004, 0x2005, 0x2006, 0x2007, 0x2008, 0x2009, 0x200A, 0x2028, 0x2029,
    0x202F, 0x205F, 0x3000, 0xFEFF]

/-- The method `String.prototype.trim()`. -/
def strTrim (s : String) : String :=
  ⟨((s.data.dropWhile isJsSpace).reverse.dropWhile isJsSpace).reverse⟩

/-- The value of a character as a digit in the given radix. -/
def digitValue (radix : Nat) (c : Char) : Option Nat :=
  let v : Option Nat :=
    if '0' ≤ c ∧ c ≤ '9' then some (c.toNat - '0'.toNat)
    else if 'a' ≤ c ∧ c ≤ 'z' then some (c.toNat - 'a'.toNat + 10)
    else if 'A' ≤ c ∧ c ≤ 'Z' then some (c.toNat - 'A'.toNat + 10)
    else none
  v.filter (fun d => d < radix)

/-- The longest prefix of digits, read as a number; `none` when there is no
digit at all. -/
def readDigits (radix : Nat) : List Char → Option Nat → Option Nat
  | [], acc => acc
  | c :: cs, acc =>
    match digitValue radix c with
    | some d => readDigits radix cs (some (radix * acc.getD 0 + d))
    | none => acc

/-- The global function `parseInt(string)` without a radix: leading white space
is skipped, a sign is read, a `0x` prefix selects radix 16, then the longest
prefix of digits is converted and whatever follows is ignored; `NaN` when no
digit was read. The result is the exact integer. -/
def parseInt (s : String) : JSVal :=
  let t := s.data.dropWhile isJsSpace
  let (neg, t) := match t with
    | '-' :: r => (true, r)
    | '+' :: r => (false, r)
    | r => (false, r)
  let (radix, t) := match t with
    | '0' :: 'x' :: r => (16, r)
    | '0' :: 'X' :: r => (16, r)
    | r => (10, r)
  match readDigits radix t none with
  | none => .nan
  | some n => .num (if neg then -(n : Int) else n)

/-! ## `isCompanyOrSchoolPage` (lines 259-264) -/

/-- The call `linkedinUrl.indexOf(searchString)` on whatever `linkedinUrl`
holds: the string method on a string, `Array.prototype.indexOf` (strict
equality with an element) on an array, and a `TypeError` on every other value,
none of which has a callable `indexOf`. -/
def callIndexOf (v : JSVal) (search : String) : Except Exn Int :=
  match v with
  | .str s => .ok (strIndexOf s search)
  | .arr xs =>
    .ok (match xs.findIdx? (fun x => match x with
        | .str t => t = search
        | _ => false) with
      | some i => (i : Int)
      | none => -1)
  | .undefined => .error (.typeError "Cannot read property indexOf of undefined")
  | .null => .error (.typeError "Cannot read property indexOf of null")
  | _ => .error (.typeError "linkedinUrl.indexOf is not a function")

/-- Lines 259-264:
`linkedinUrl.indexOf('https://www.linkedin.com/company/') != -1 ||
 linkedinUrl.indexOf('https://www.linkedin.com/school/') != -1`. -/
def isCompanyOrSchoolPage (linkedinUrl : JSVal) : Except Exn Bool :=
  match callIndexOf linkedinUrl "https://www.linkedin.com/company/" with
  | .error e => .error e
  | .ok i =>
    if i != -1 then .ok true
    else
      match callIndexOf linkedinUrl "https://www.linkedin.com/school/" with
      | .error e => .error e
      | .ok j => .ok (j != -1)

/-! ## Runs of the orchestrator -/

/-- The calls a run makes on its collaborators. -/
inductive Event where
  /-- The body of `init`: `oauth.getAccessToken()` and the set-up of the client. -/
  | init
  /-- The call `console.log(msg)`. -/
  | log (msg : String)
  /-- The call `getPeopleData(url)`, the people API. -/
  | getPeopleData (url : JSVal)
  /-- The call `pup.runBrowser(...)`. -/
  | runBrowser
  /-- The call `pup.createPage(browser, ...)`. -/
  | createPage (browser : Nat)
  /-- The call `scrapPeopleProfile(page, url)`, people extraction. -/
  | scrapPeopleProfile (page : Nat) (url : JSVal)
  /-- The call `scrapCompanyPage(page, url)`, company extraction. -/
  | scrapCompanyPage (page : Nat) (url : JSVal)
  /-- The call `browser.close()`. -/
  | browserClose (browser : Nat)
  /-- The call `console.error(page.url())`. -/
  | logPageUrl (page : Nat)
  /-- The call `page.screenshot({path})`. -/
  | screenshot (page : Nat) (path : String)

/-- A run: the calls made, in order, and the value returned or the exception
raised. -/
structure M (α : Type) where
  trace : List Event
  result : Except Exn α

instance : Monad M where
  pure a := ⟨[], .ok a⟩
  bind m f :=
    match m.result with
    | .error e => ⟨m.trace, .error e⟩
    | .ok a => ⟨m.trace ++ (f a).trace, (f a).result⟩

/-- A call on a collaborator: it is recorded, and its outcome is the outcome of
the `await`. -/
def call {α : Type} (e : Event) (outcome : Except Exn α) : M α := ⟨[e], outcome⟩

/-- An operation of the language that may raise. -/
def liftE {α : Type} (r : Except Exn α) : M α := ⟨[], r⟩

/-- The statement `try { body } catch (e) { handler(e) }`. -/
def tryCatch {α : Type} (body : M α) (handler : Exn → M α) : M α :=
  match body.result with
  | .ok a => ⟨body.trace, .ok a⟩
  | .error e => ⟨body.trace ++ (handler e).trace, (handler e).result⟩

/-! ## The extractors (lines 120-257) -/

/-- One `li` of `#experience-section`. -/
structure Experience where
  /-- The text of `span.pv-entity__secondary-title`. -/
  companyName : String
  /-- The attribute `href` of `a.ember-view`, `undefined` when absent. -/
  href : Option String

/-- One `li` of `section.pv-browsemap-section`. -/
structure RelatedPerson where
  name : String
  position : String
  href : Option String

/-- What `scrapPeopleProfile` reads from the rendered profile page, each field
being the `.text()` of its selector. -/
structure ProfilePage where
  name : String
  headline : String
  location : String
  summary : String
  experiences : List Experience
  school : String
  connections : String
  relatedPeople : List RelatedPerson
  /-- The value of `page.url()` after the extraction. -/
  url : String

/-- What `scrapCompanyPage` reads from the rendered company page, each field
being the `.text()` of its selector. -/
structure CompanyPage where
  name : String
  industry : String
  description : String
  website : String
  headquarters : String
  founded : String
  companyType : String
  staffCountRange : String
  specialities : String
  followersCount : String
  seeAllLink : String
  /-- The value of `page.url()` after the extraction. -/
  url : String

/-- The expression `s || null` on a string. -/
def orNull (s : String) : JSVal := if s = "" then .null else .str s

/-- The expression `'https://www.linkedin.com' + href`. -/
def absoluteUrl (href : Option String) : String :=
  "https://www.linkedin.com" ++ href.getD "undefined"

/-- Splitting at a separator character, `String.prototype.split(' ')`. -/
def splitAt (sep : Char) : List Char → List Char → List String
  | [], cur => [⟨cur.reverse⟩]
  | c :: cs, cur => if c = sep then ⟨cur.reverse⟩ :: splitAt sep cs [] else splitAt sep cs (c :: cur)

/-- The first match of `/[0-9]+/`: the first maximal run of decimal digits. -/
def firstDigits (s : List Char) : Option String :=
  match s.dropWhile (fun c => !c.isDigit) with
  | [] => none
  | rest => some ⟨rest.takeWhile Char.isDigit⟩

/-- Lines 137-146: the object built for one experience. -/
def experienceObj (e : Experience) : JSVal :=
  .obj [("companyName", .str (strTrim e.companyName)), ("linkedinUrl", .str (absoluteUrl e.href))]

/-- Lines 149-162: the object built for one related person. -/
def relatedPersonObj (r : RelatedPerson) : JSVal :=
  .obj [("name", .str (strTrim r.name)), ("position", .str (strTrim r.position)),
        ("linkedinUrl", .str (absoluteUrl r.href))]

/-- Lines 130-190: the object `scrapPeopleProfile` returns for a rendered
page. `positions` is the array of experiences itself and `currentCompany` its
first element; reading the connections number raises a `TypeError` when the
text holds no digit (`match` gives `null`). -/
def peopleDetailsOf (pg : ProfilePage) : Except Exn Obj :=
  let name := splitAt ' ' (strTrim pg.name).data []
  let experiences := pg.experiences.map experienceObj
  let relatedPeople := pg.relatedPeople.map relatedPersonObj
  match firstDigits pg.connections.data with
  | none => .error (.typeError "Cannot read property 0 of null")
  | some digits =>
    .ok [("firstName", (name.get? 0).elim .undefined .str),
         ("lastName", (name.get? 1).elim .undefined .str),
         ("headline", .str (strTrim pg.headline)),
         ("location", .str (strTrim pg.location)),
         ("summary", .str (strTrim pg.summary)),
         ("currentCompany", experiences.headD .null),
         ("school", orNull (strTrim pg.school)),
         ("connectionsNumber", parseInt digits),
         ("positions", .arr experiences),
         ("relatedPeople", .arr relatedPeople),
         ("linkedinUrl", .str pg.url)]

/-- Lines 238-244: the parsing of the followers count. -/
def parseFollowers (text : String) : JSVal :=
  parseInt (strTrim (strReplace (strReplace text "followers" "") "," ""))

/-- Lines 245-252: the parsing of the number of members on LinkedIn. -/
def parseMembers (text : String) : JSVal :=
  parseInt (strTrim (strReplace (strReplace (strReplace text "See all" "")
    "employees on LinkedIn" "") "," ""))

/-- Lines 201-256: the object `scrapCompanyPage` returns for a rendered page. -/
def companyDetailsOf (pg : CompanyPage) : Obj :=
  [("name", .str (strTrim pg.name)),
   ("industry", .str (strTrim pg.industry)),
   ("description", orNull (strTrim pg.description)),
   ("website", .str (strTrim pg.website)),
   ("headquarters", orNull (strTrim pg.headquarters)),
   ("foundedYear", parseInt (strTrim pg.founded)),
   ("companyType", orNull (strTrim pg.companyType)),
   ("companySize", parseInt (strTrim pg.staffCountRange)),
   ("specialties", orNull (strTrim pg.specialities)),
   ("followers", parseFollowers pg.followersCount),
   ("membersOnLinkedin", parseMembers pg.seeAllLink),
   ("linkedinUrl", .str pg.url)]

/-! ## The collaborators -/

/-- The outcome of every call the orchestrator can make on the outside world. -/
structure Env where
  /-- The test `new Date() > tokenExpirationDate`. -/
  tokenExpired : Bool
  /-- The `try` block of `init`: token exchange and client set-up. -/
  initBody : Except Exn Unit
  /-- The people API: the JSON object the client resolves with, or its error. -/
  peopleApi : JSVal → Except Exn Obj
  /-- The call `pup.runBrowser`: a browser handle. -/
  runBrowser : Except Exn Nat
  /-- The call `pup.createPage`: a page handle. -/
  createPage : Nat → Except Exn Nat
  /-- Navigation, log-in and rendering of a profile page (lines 121-129). -/
  profilePage : Nat → JSVal → Except Exn ProfilePage
  /-- Navigation, log-in and rendering of a company page (lines 194-200). -/
  companyPage : Nat → JSVal → Except Exn CompanyPage
  /-- The call `browser.close()`. -/
  browserClose : Nat → Except Exn Unit
  /-- The call `page.screenshot`. -/
  screenshot : Nat → String → Except Exn Unit

/-- The caller's options; `page` is a page handle when one is supplied. -/
structure Options where
  page : Option Nat
  forcePeopleScraping : Bool
  skipCompanyScraping : Bool

/-- Lines 17-27: `init`; whatever fails inside is replaced by
`new Error('Initialization has failed.')`. -/
def init (env : Env) : M Unit :=
  tryCatch (call .init env.initBody) (fun _ => liftE (.error (.error "Initialization has failed.")))

/-- Lines 111-118: `getPeopleData`. -/
def getPeopleData (env : Env) (profileUrl : JSVal) : M Obj :=
  call (.getPeopleData profileUrl) (env.peopleApi profileUrl)

/-- Lines 120-191: `scrapPeopleProfile`. -/
def scrapPeopleProfile (env : Env) (page : Nat) (url : JSVal) : M Obj := do
  let pg ← call (.scrapPeopleProfile page url) (env.profilePage page url)
  liftE (peopleDetailsOf pg)

/-- Lines 193-257: `scrapCompanyPage`. -/
def scrapCompanyPage (env : Env) (page : Nat) (url : JSVal) : M Obj := do
  let pg ← call (.scrapCompanyPage page url) (env.companyPage page url)
  pure (companyDetailsOf pg)

/-! ## `getCompanyOrPeopleDetails` (lines 30-109) -/

/-- An early `return v`, or the state with which the function goes on. -/
inductive Step (α : Type) where
  | ret (v : JSVal)
  | next (a : α)

/-- The variables `browser`, `page` and `peopleDetails` after lines 41-65. -/
structure Fetched where
  browser : Option Nat
  page : Option Nat
  peopleDetails : Obj

/-- Lines 43-46, 59-62 and 86-89:
`if (!page) { browser = await pup.runBrowser(...); page = await pup.createPage(browser, ...) }`. -/
def ensurePage (env : Env) (browser page : Option Nat) : M (Option Nat × Nat) :=
  match page with
  | some p => pure (browser, p)
  | none => do
    let b ← call .runBrowser env.runBrowser
    let p ← call (.createPage b) (env.createPage b)
    pure (some b, p)

/-- Lines 69 and 81: `if (!options.page && browser) await browser.close()`. -/
def closeOwned (env : Env) (options : Options) (browser : Option Nat) : M Unit :=
  match options.page, browser with
  | none, some b => call (.browserClose b) (env.browserClose b)
  | _, _ => pure ()

/-- Line 102: `if (!options.page) await browser.close()`; on `null` the call
raises a `TypeError`. -/
def closeUnlessBorrowed (env : Env) (options : Options) (browser : Option Nat) : M Unit :=
  match options.page with
  | some _ => pure ()
  | none =>
    match browser with
    | some b => call (.browserClose b) (env.browserClose b)
    | none => liftE (.error (.typeError "Cannot read property close of null"))

/-- Line 31: `if (new Date() > tokenExpirationDate) await init()`. -/
def refreshToken (env : Env) : M Unit :=
  if env.tokenExpired then init env else pure ()

/-- Lines 43-47 and 59-63: people extraction, on the page at hand or on one
that is created, the profile read replacing `peopleDetails`. -/
def scrapeProfile (env : Env) (linkedinUrl : JSVal) (options : Options) : M (Step Fetched) := do
  let (browser, page) ← ensurePage env none options.page
  let peopleDetails ← scrapPeopleProfile env page linkedinUrl
  pure (.next ⟨browser, some page, peopleDetails⟩)

/-- Lines 41-65: the profile is taken from people extraction when forced,
else from the API, with people extraction as fallback. -/
def fetchPeople (env : Env) (linkedinUrl : JSVal) (options : Options) : M (Step Fetched) :=
  if options.forcePeopleScraping then scrapeProfile env linkedinUrl options
  else do
    let peopleDetails ← getPeopleData env linkedinUrl
    let message := getField peopleDetails "message"
    let linkedinApiInternalError ←
      (if truthy message then liftE (looseEqWord message "Internal API server error")
       else pure false)
    if truthy message && !linkedinApiInternalError then
      pure (.ret (.obj [("error", message)]))
    else do
      let isPrivateProfile ← liftE (looseEqWord (getField peopleDetails "id") "private")
      let peopleDetails := setField peopleDetails "isPrivateProfile" (.bool isPrivateProfile)
      if isPrivateProfile || linkedinApiInternalError then
        scrapeProfile env linkedinUrl options
      else pure (.next ⟨none, options.page, peopleDetails⟩)

/-- Lines 74-75:
`peopleDetails['positions']['values'] && peopleDetails['positions']['values'][0]['company']['id']`. -/
def companyIdOf (peopleDetails : Obj) : Except Exn JSVal :=
  match getProp (getField peopleDetails "positions") "values" with
  | .error e => .error e
  | .ok values =>
    if truthy values then
      match getProp values "0" with
      | .error e => .error e
      | .ok first =>
        match getProp first "company" with
        | .error e => .error e
        | .ok company => getProp company "id"
    else .ok values

/-- Lines 76-77: the company page URL, from the company identifier or else
from `peopleDetails['currentCompany'] && peopleDetails['currentCompany']['linkedinUrl']`. -/
def companyUrlOf (peopleDetails : Obj) (companyId : JSVal) : Except Exn JSVal :=
  if truthy companyId then
    (toStr companyId).map (fun s => .str ("https://www.linkedin.com/company/" ++ s))
  else
    let currentCompany := getField peopleDetails "currentCompany"
    if truthy currentCompany then getProp currentCompany "linkedinUrl" else .ok currentCompany

/-- Lines 67-83: the early return asked for by `skipCompanyScraping`, else the
resolution of the company page URL. -/
def resolveCompany (env : Env) (options : Options) (f : Fetched) : M (Step (Fetched × JSVal)) :=
  if options.skipCompanyScraping then do
    closeOwned env options f.browser
    pure (.ret (.obj f.peopleDetails))
  else do
    let companyId ← liftE (companyIdOf f.peopleDetails)
    let linkedinUrl ← liftE (companyUrlOf f.peopleDetails companyId)
    let isCompany ←
      (if truthy linkedinUrl then liftE (isCompanyOrSchoolPage linkedinUrl) else pure false)
    if !truthy linkedinUrl || !isCompany then do
      closeOwned env options f.browser
      pure (.ret (.obj f.peopleDetails))
    else pure (.next (f, linkedinUrl))

/-- Lines 86-108: company extraction and the merge of the two results. -/
def scrapCompany (env : Env) (options : Options) (browser page : Option Nat)
    (peopleDetails : Option Obj) (linkedinUrl : JSVal) : M JSVal := do
  let (browser, page) ← ensurePage env browser page
  let companyDetails ← tryCatch (scrapCompanyPage env page linkedinUrl) (fun e => do
    call (.logPageUrl page) (.ok ())
    call (.screenshot page "error.png") (env.screenshot page "error.png")
    liftE (.error e))
  closeUnlessBorrowed env options browser
  match peopleDetails with
  | some pd => pure (.obj (setField pd "company" (.obj companyDetails)))
  | none => pure (.obj companyDetails)

/-- Lines 30-109: `getCompanyOrPeopleDetails(linkedinUrl, options)`. -/
def getCompanyOrPeopleDetails (env : Env) (linkedinUrl : String) (options : Options) : M JSVal := do
  refreshToken env
  call (.log ("Getting data from \"" ++ linkedinUrl ++ "\"...")) (.ok ())
  let isCompany ← liftE (isCompanyOrSchoolPage (.str linkedinUrl))
  if !isCompany then
    match ← fetchPeople env (.str linkedinUrl) options with
    | .ret v => pure v
    | .next f =>
      match ← resolveCompany env options f with
      | .ret v => pure v
      | .next (f, companyUrl) =>
        scrapCompany env options f.browser f.page (some f.peopleDetails) companyUrl
  else scrapCompany env options none options.page none (.str linkedinUrl)

/-- Lines 41-108, run when the URL is not a company or school page. -/
def profileRun (env : Env) (linkedinUrl : String) (options : Options) : M JSVal :=
  fetchPeople env (.str linkedinUrl) options >>= fun st =>
    match st with
    | .ret v => pure v
    | .next f =>
      resolveCompany env options f >>= fun st₂ =>
        match st₂ with
        | .ret v => pure v
        | .next (f, companyUrl) =>
          scrapCompany env options f.browser f.page (some f.peopleDetails) companyUrl

/-! ## Kinds of calls -/

/-- The call starts a browser. -/
def Event.isRunBrowser : Event → Bool
  | .runBrowser => true
  | _ => false

/-- The call creates a page. -/
def Event.isCreatePage : Event → Bool
  | .createPage _ => true
  | _ => false

/-- The call is a call of the people API. -/
def Event.isGetPeopleData : Event → Bool
  | .getPeopleData _ => true
  | _ => false

/-- The call is people extraction. -/
def Event.isScrapPeopleProfile : Event → Bool
  | .scrapPeopleProfile _ _ => true
  | _ => false

/-- The call is company extraction. -/
def Event.isScrapCompanyPage : Event → Bool
  | .scrapCompanyPage _ _ => true
  | _ => false

/-- The call closes a browser. -/
def Event.isBrowserClose : Event → Bool
  | .browserClose _ => true
  | _ => false

/-- The token is usable: it has not expired, or `init` renews it. -/
def Env.tokenReady (env : Env) : Prop :=
  env.tokenExpired = false ∨ env.initBody = .ok ()

/-! ## The discipline of browser ownership, as a monitor of the calls -/

/-- Running a monitor over a trace: the state reached, `none` once a call is
rejected. -/
def monitor {σ : Type} (step : σ → Event → Option σ) : σ → List Event → Option σ
  | s, [] => some s
  | s, e :: t =>
    match step s e with
    | none => none
    | some s' => monitor step s' t

/-- The monitor of browser ownership. Its state tells whether this run has
started a browser. Starting one is rejected when the caller supplied a page;
closing one is accepted only when the caller supplied no page, this run has
started a browser, and the handle closed is the one `pup.runBrowser` gave. -/
def discipline (env : Env) (options : Options) (started : Bool) : Event → Option Bool
  | .runBrowser => if options.page.isSome then none else some true
  | .browserClose b =>
    match env.runBrowser with
    | .ok b' => if options.page.isNone && started && b' == b then some started else none
    | .error _ => none
  | _ => some started

/-- A triple of the monitor logic: started in state `s`, the calls of `m` are
all accepted, and a value `m` returns satisfies `Q` in the state reached. -/
def Tri {σ α : Type} (step : σ → Event → Option σ) (s : σ) (m : M α) (Q : σ → α → Prop) : Prop :=
  ∃ s', monitor step s m.trace = some s' ∧ ∀ a, m.result = .ok a → Q s' a

/-- The variable `browser` holds a handle only if this run started that
browser, the caller having supplied no page. -/
def Inv (env : Env) (options : Options) (started : Bool) (browser : Option Nat) : Prop :=
  ∀ b, browser = some b → started = true ∧ env.runBrowser = .ok b ∧ options.page = none

/-- A triple of the logic of calls: every call of `m` satisfies `P`, and a value
`m` returns satisfies `Q`. -/
def Sat {α : Type} (P : Event → Prop) (m : M α) (Q : α → Prop) : Prop :=
  (∀ e ∈ m.trace, P e) ∧ ∀ a, m.result = .ok a → Q a

/-- The value is not an object: `undefined`, `null`, `NaN`, a boolean, a number
or a string. -/
def JSVal.isPrimitive : JSVal → Bool
  | .arr _ => false
  | .obj _ => false
  | .fn _ => false
  | _ => true

/-! ## Sample data -/

/-- A rendered profile page with one experience, at a company. -/
def sampleProfilePage : ProfilePage where
  name := " Ada Lovelace "
  headline := "Engineer"
  location := "London"
  summary := ""
  experiences := [{ companyName := "Acme", href := some "/company/acme/" }]
  school := ""
  connections := "500+ connections"
  relatedPeople := []
  url := "https://www.linkedin.com/in/ada/"

/-- A rendered company page. -/
def sampleCompanyPage : CompanyPage where
  name := "Acme"
  industry := "Machinery"
  description := ""
  website := "https://acme.example"
  headquarters := "London"
  founded := "1999"
  companyType := "Privately Held"
  staffCountRange := "51-200 employees"
  specialities := ""
  followersCount := "1,234 followers"
  seeAllLink := "See all 5,000 employees on LinkedIn"
  url := "https://www.linkedin.com/company/acme/"

/-- An API answer for an unknown profile. -/
def sampleErrorAnswer : Obj :=
  [("errorCode", .num 0), ("message", .str "Invalid profile URL"), ("status", .num 404)]

/-- An API answer for a private profile. -/
def samplePrivateAnswer : Obj :=
  [("id", .str "private")]

/-- An API answer for a public profile whose most recent position is at the
company 1337. -/
def samplePublicAnswer : Obj :=
  [("id", .str "aB3x"), ("firstName", .str "Ada"),
   ("positions", .obj [("_total", .num 1),
      ("values", .arr [.obj [("company", .obj [("id", .num 1337), ("name", .str "Acme")]),
                             ("title", .str "Engineer")]])])]

/-- Collaborators that all succeed, the API giving `answer`; the browser
started has handle 1 and the page created handle 2. -/
def sampleEnv (answer : Obj) : Env where
  tokenExpired := false
  initBody := .ok ()
  peopleApi := fun _ => .ok answer
  runBrowser := .ok 1
  createPage := fun _ => .ok 2
  profilePage := fun _ _ => .ok sampleProfilePage
  companyPage := fun _ _ => .ok sampleCompanyPage
  browserClose := fun _ => .ok ()
  screenshot := fun _ _ => .ok ()

/-- The same collaborators, company extraction raising the exception 42. -/
def sampleFailingEnv (answer : Obj) : Env :=
  { sampleEnv answer with companyPage := fun _ _ => .error (.thrown 42) }

/-! # Properties -/

/-! ## The monad of runs -/

theorem bind_of_ok {α β : Type} (m : M α) (f : α → M β) (a : α) (h : m.result = .ok a) :
    (m >>= f) = ⟨m.trace ++ (f a).trace, (f a).result⟩ := by
  show (match m.result with
    | .error e => (⟨m.trace, .error e⟩ : M β)
    | .ok a => ⟨m.trace ++ (f a).trace, (f a).result⟩) = _
  rw [h]

theorem bind_of_error {α β : Type} (m : M α) (f : α → M β) (e : Exn) (h : m.result = .error e) :
    (m >>= f) = ⟨m.trace, .error e⟩ := by
  show (match m.result with
    | .error e => (⟨m.trace, .error e⟩ : M β)
    | .ok a => ⟨m.trace ++ (f a).trace, (f a).result⟩) = _
  rw [h]

/-! ## The monitor logic -/

section Logic

variable {σ α β : Type} {step : σ → Event → Option σ}

theorem monitor_append (s : σ) (t₁ t₂ : List Event) :
    monitor step s (t₁ ++ t₂) = (monitor step s t₁).bind (fun s' => monitor step s' t₂) := by
  induction t₁ generalizing s with
  | nil => rfl
  | cons e t ih =>
    simp only [List.cons_append, monitor]
    cases step s e with
    | none => rfl
    | some s' => exact ih s'

theorem tri_pure {s : σ} {a : α} {Q : σ → α → Prop} (h : Q s a) :
    Tri step s (pure a : M α) Q :=
  ⟨s, rfl, fun b hb => by cases hb; exact h⟩

theorem tri_bind {s : σ} {m : M α} {f : α → M β} {Q : σ → α → Prop} {R : σ → β → Prop}
    (hm : Tri step s m Q) (hf : ∀ s' a, Q s' a → Tri step s' (f a) R) :
    Tri step s (m >>= f) R := by
  obtain ⟨s₁, hacc, hq⟩ := hm
  cases hr : m.result with
  | error e =>
    rw [bind_of_error m f e hr]
    exact ⟨s₁, hacc, fun b hb => by cases hb⟩
  | ok a =>
    rw [bind_of_ok m f a hr]
    obtain ⟨s₂, hacc₂, hq₂⟩ := hf s₁ a (hq a hr)
    refine ⟨s₂, ?_, hq₂⟩
    show monitor step s (m.trace ++ (f a).trace) = some s₂
    rw [monitor_append, hacc]
    exact hacc₂

theorem tri_call {s s' : σ} {e : Event} {r : Except Exn α} {Q : σ → α → Prop}
    (hstep : step s e = some s') (h : ∀ a, r = .ok a → Q s' a) :
    Tri step s (call e r) Q := by
  refine ⟨s', ?_, h⟩
  show monitor step s [e] = some s'
  simp [monitor, hstep]

theorem tri_liftE {s : σ} {r : Except Exn α} {Q : σ → α → Prop}
    (h : ∀ a, r = .ok a → Q s a) : Tri step s (liftE r) Q :=
  ⟨s, rfl, h⟩

theorem tri_tryCatch {s : σ} {body : M α} {handler : Exn → M α} {Q : σ → α → Prop}
    (hb : Tri step s body Q) (hh : ∀ s' e, Tri step s' (handler e) Q) :
    Tri step s (tryCatch body handler) Q := by
  obtain ⟨s₁, hacc, hq⟩ := hb
  unfold tryCatch
  cases hr : body.result with
  | ok a => exact ⟨s₁, hacc, fun b hb => by cases hb; exact hq a hr⟩
  | error e =>
    obtain ⟨s₂, hacc₂, hq₂⟩ := hh s₁ e
    refine ⟨s₂, ?_, hq₂⟩
    show monitor step s (body.trace ++ (handler e).trace) = some s₂
    rw [monitor_append, hacc]
    exact hacc₂

end Logic


/-! ## The logic of calls -/

section Calls

variable {α β : Type} {P : Event → Prop}

theorem sat_pure {a : α} {Q : α → Prop} (h : Q a) : Sat P (pure a : M α) Q :=
  ⟨fun e he => (by cases he), fun b hb => by cases hb; exact h⟩

theorem sat_bind {m : M α} {f : α → M β} {Q : α → Prop} {R : β → Prop}
    (hm : Sat P m Q) (hf : ∀ a, Q a → Sat P (f a) R) : Sat P (m >>= f) R := by
  obtain ⟨htr, hq⟩ := hm
  cases hr : m.result with
  | error e =>
    rw [bind_of_error m f e hr]
    exact ⟨htr, fun b hb => by cases hb⟩
  | ok a =>
    rw [bind_of_ok m f a hr]
    obtain ⟨htr₂, hq₂⟩ := hf a (hq a hr)
    refine ⟨?_, hq₂⟩
    intro e he
    rcases List.mem_append.mp he with h | h
    · exact htr e h
    · exact htr₂ e h

theorem sat_call {e : Event} {r : Except Exn α} {Q : α → Prop}
    (he : P e) (h : ∀ a, r = .ok a → Q a) : Sat P (call e r) Q := by
  refine ⟨?_, h⟩
  intro x hx
  cases List.mem_singleton.mp hx
  exact he

theorem sat_liftE {r : Except Exn α} {Q : α → Prop} (h : ∀ a, r = .ok a → Q a) :
    Sat P (liftE r) Q :=
  ⟨fun e he => (by cases he), h⟩

theorem sat_tryCatch {body : M α} {handler : Exn → M α} {Q : α → Prop}
    (hb : Sat P body Q) (hh : ∀ e, Sat P (handler e) Q) : Sat P (tryCatch body handler) Q := by
  obtain ⟨htr, hq⟩ := hb
  unfold tryCatch
  cases hr : body.result with
  | ok a => exact ⟨htr, fun b hb => by cases hb; exact hq a hr⟩
  | error e =>
    obtain ⟨htr₂, hq₂⟩ := hh e
    refine ⟨?_, hq₂⟩
    intro x hx
    rcases List.mem_append.mp hx with h | h
    · exact htr x h
    · exact htr₂ x h

theorem mem_bind_left {m : M α} {f : α → M β} {e : Event} (h : e ∈ m.trace) :
    e ∈ (m >>= f).trace := by
  cases hr : m.result with
  | error x =>
    rw [bind_of_error m f x hr]
    exact h
  | ok a =>
    rw [bind_of_ok m f a hr]
    exact List.mem_append_left _ h

theorem mem_tryCatch_left {body : M α} {handler : Exn → M α} {e : Event} (h : e ∈ body.trace) :
    e ∈ (tryCatch body handler).trace := by
  unfold tryCatch
  cases body.result with
  | ok a => exact h
  | error x => exact List.mem_append_left _ h

theorem bind_ok_inv {m : M α} {f : α → M β} {r : β} (h : (m >>= f).result = .ok r) :
    ∃ a, m.result = .ok a ∧ (f a).result = .ok r ∧
      (m >>= f).trace = m.trace ++ (f a).trace := by
  cases hr : m.result with
  | error e =>
    rw [bind_of_error m f e hr] at h
    cases h
  | ok a =>
    rw [bind_of_ok m f a hr] at h ⊢
    exact ⟨a, rfl, h, rfl⟩

end Calls

/-! ## Browser ownership along the orchestrator -/

section Ownership

variable (env : Env) (options : Options)

theorem discipline_other {s : Bool} {e : Event} (h₁ : e.isRunBrowser = false)
    (h₂ : e.isBrowserClose = false) : discipline env options s e = some s := by
  cases e <;> simp_all [discipline, Event.isRunBrowser, Event.isBrowserClose]

theorem discipline_close {s : Bool} {browser : Option Nat} {b : Nat}
    (hinv : Inv env options s browser) (hb : browser = some b) :
    discipline env options s (.browserClose b) = some s := by
  obtain ⟨hs, hrun, hnone⟩ := hinv b hb
  simp [discipline, hrun, hnone, hs]

theorem ensurePage_tri {s : Bool} {browser page : Option Nat}
    (hinv : Inv env options s browser) (hpage : page = none → options.page = none) :
    Tri (discipline env options) s (ensurePage env browser page)
      (fun s' r => Inv env options s' r.1) := by
  unfold ensurePage
  cases page with
  | some p => exact tri_pure hinv
  | none =>
    have hnone := hpage rfl
    refine tri_bind (Q := fun s' b => s' = true ∧ env.runBrowser = .ok b) (tri_call (?_ : discipline env options s Event.runBrowser = some true) ?_) ?_
    · simp [discipline, hnone]
    · intro b hb
      exact ⟨rfl, hb⟩
    · rintro s' b ⟨hs, hb⟩
      refine tri_bind (Q := fun s'' _ => s'' = s') (tri_call (discipline_other env options rfl rfl) ?_) ?_
      · intro _ _
        rfl
      · rintro s'' p rfl
        refine tri_pure ?_
        intro b' hb'
        cases hb'
        exact ⟨hs, hb, hnone⟩

theorem closeOwned_tri {s : Bool} {browser : Option Nat} (hinv : Inv env options s browser) :
    Tri (discipline env options) s (closeOwned env options browser) (fun s' _ => s' = s) := by
  unfold closeOwned
  split
  · rename_i b _
    exact tri_call (discipline_close env options hinv rfl) (fun _ _ => rfl)
  · exact tri_pure rfl

theorem scrapPeopleProfile_tri {s : Bool} (page : Nat) (url : JSVal) :
    Tri (discipline env options) s (scrapPeopleProfile env page url) (fun s' _ => s' = s) := by
  unfold scrapPeopleProfile
  refine tri_bind (Q := fun s' _ => s' = s) (tri_call (discipline_other env options rfl rfl) ?_) ?_
  · intro _ _
    rfl
  · rintro s' pg rfl
    exact tri_liftE (fun _ _ => rfl)

theorem scrapCompanyPage_tri {s : Bool} (page : Nat) (url : JSVal) :
    Tri (discipline env options) s (scrapCompanyPage env page url) (fun s' _ => s' = s) := by
  unfold scrapCompanyPage
  refine tri_bind (Q := fun s' _ => s' = s) (tri_call (discipline_other env options rfl rfl) ?_) ?_
  · intro _ _
    rfl
  · rintro s' pg rfl
    exact tri_pure rfl

/-- What holds of the variables after lines 41-65. -/
theorem fetchPeople_tri {s : Bool} (url : JSVal) :
    Tri (discipline env options) s (fetchPeople env url options)
      (fun s' st => ∀ f, st = .next f →
        Inv env options s' f.browser ∧ (f.page = none → options.page = none)) := by
  have hinv : Inv env options s none := fun b hb => by cases hb
  have scrape : Tri (discipline env options) s (scrapeProfile env url options)
      (fun s' st => ∀ f, st = .next f →
        Inv env options s' f.browser ∧ (f.page = none → options.page = none)) := by
    unfold scrapeProfile
    refine tri_bind (ensurePage_tri env options hinv (fun h => h)) ?_
    rintro s' ⟨browser, page⟩ hb
    refine tri_bind (Q := fun s'' _ => s'' = s') (scrapPeopleProfile_tri env options page url) ?_
    rintro s'' pd rfl
    refine tri_pure ?_
    intro f hf
    cases hf
    exact ⟨hb, fun h => by cases h⟩
  unfold fetchPeople
  split
  · exact scrape
  · refine tri_bind (Q := fun s' _ => s' = s) (tri_call (discipline_other env options rfl rfl) ?_) ?_
    · intro _ _
      rfl
    · rintro s' pd rfl
      dsimp only
      refine tri_bind (Q := fun s'' _ => s'' = s') ?_ ?_
      · split
        · exact tri_liftE (fun _ _ => rfl)
        · exact tri_pure rfl
      · rintro s'' internal rfl
        split
        · exact tri_pure (fun f hf => by cases hf)
        · refine tri_bind (Q := fun s₃ _ => s₃ = s'') (tri_liftE (fun _ _ => rfl)) ?_
          rintro s₃ isPrivate rfl
          split
          · exact scrape
          · refine tri_pure ?_
            intro f hf
            cases hf
            exact ⟨hinv, fun h => h⟩

theorem resolveCompany_tri {s : Bool} (f : Fetched) (hinv : Inv env options s f.browser) :
    Tri (discipline env options) s (resolveCompany env options f)
      (fun s' st => ∀ f' u, st = .next (f', u) → f' = f ∧ s' = s) := by
  have leave : Tri (discipline env options) s
      (do
        closeOwned env options f.browser
        pure (Step.ret (.obj f.peopleDetails) : Step (Fetched × JSVal)))
      (fun s' st => ∀ f' u, st = .next (f', u) → f' = f ∧ s' = s) := by
    refine tri_bind (closeOwned_tri env options hinv) ?_
    rintro s' _ rfl
    exact tri_pure (fun f' u h => by cases h)
  unfold resolveCompany
  split
  · exact leave
  · refine tri_bind (Q := fun s' _ => s' = s) (tri_liftE (fun _ _ => rfl)) ?_
    rintro s' companyId rfl
    refine tri_bind (Q := fun s'' _ => s'' = s') (tri_liftE (fun _ _ => rfl)) ?_
    rintro s'' linkedinUrl rfl
    refine tri_bind (Q := fun s₃ _ => s₃ = s'') ?_ ?_
    · split
      · exact tri_liftE (fun _ _ => rfl)
      · exact tri_pure rfl
    · rintro s₃ isCompany rfl
      split
      · exact leave
      · refine tri_pure ?_
        intro f' u h
        cases h
        exact ⟨rfl, rfl⟩

theorem closeUnlessBorrowed_tri {s : Bool} {browser : Option Nat}
    (hinv : Inv env options s browser) :
    Tri (discipline env options) s (closeUnlessBorrowed env options browser)
      (fun _ _ => True) := by
  unfold closeUnlessBorrowed
  split
  · exact tri_pure trivial
  · split
    · exact tri_call (discipline_close env options hinv rfl) (fun _ _ => trivial)
    · exact tri_liftE (fun _ _ => trivial)

theorem scrapCompany_tri {s : Bool} {browser page : Option Nat} (peopleDetails : Option Obj)
    (url : JSVal) (hinv : Inv env options s browser)
    (hpage : page = none → options.page = none) :
    Tri (discipline env options) s (scrapCompany env options browser page peopleDetails url)
      (fun _ _ => True) := by
  unfold scrapCompany
  refine tri_bind (ensurePage_tri env options hinv hpage) ?_
  rintro s' ⟨browser', page'⟩ hb
  refine tri_bind (Q := fun s'' _ => s'' = s') (tri_tryCatch ?_ ?_) ?_
  · exact scrapCompanyPage_tri env options page' url
  · intro s₁ e
    refine tri_bind (Q := fun s₂ _ => s₂ = s₁)
      (tri_call (discipline_other env options rfl rfl) (fun _ _ => rfl)) ?_
    rintro s₂ _ rfl
    refine tri_bind (Q := fun s₃ _ => s₃ = s₂)
      (tri_call (discipline_other env options rfl rfl) (fun _ _ => rfl)) ?_
    rintro s₃ _ rfl
    exact tri_liftE (fun _ h => by cases h)
  · rintro s'' companyDetails rfl
    refine tri_bind (closeUnlessBorrowed_tri env options hb) ?_
    intro s₃ _ _
    split
    · exact tri_pure trivial
    · exact tri_pure trivial

theorem refreshToken_tri {s : Bool} :
    Tri (discipline env options) s (refreshToken env) (fun s' _ => s' = s) := by
  unfold refreshToken init
  split
  · refine tri_tryCatch (tri_call (discipline_other env options rfl rfl) (fun _ _ => rfl)) ?_
    intro s' e
    exact tri_liftE (fun _ h => by cases h)
  · exact tri_pure rfl

/-- Every run of the orchestrator is accepted by the monitor of browser
ownership. -/
theorem getCompanyOrPeopleDetails_tri (url : String) :
    Tri (discipline env options) false (getCompanyOrPeopleDetails env url options)
      (fun _ _ => True) := by
  have hinv : Inv env options false none := fun b hb => by cases hb
  unfold getCompanyOrPeopleDetails
  refine tri_bind (refreshToken_tri env options) ?_
  rintro s _ rfl
  refine tri_bind (Q := fun s' _ => s' = false)
    (tri_call (discipline_other env options rfl rfl) (fun _ _ => rfl)) ?_
  rintro s' _ rfl
  refine tri_bind (Q := fun s' _ => s' = false) (tri_liftE (fun _ _ => rfl)) ?_
  rintro s' isCompany rfl
  split
  · refine tri_bind (fetchPeople_tri env options (.str url)) ?_
    intro s₁ st hst
    split
    · exact tri_pure trivial
    · rename_i f
      obtain ⟨hf, hp⟩ := hst f rfl
      refine tri_bind (resolveCompany_tri env options f hf) ?_
      intro s₂ st₂ hst₂
      split
      · exact tri_pure trivial
      · rename_i f' companyUrl
        obtain ⟨rfl, rfl⟩ := hst₂ f' companyUrl rfl
        exact scrapCompany_tri env options _ _ hf hp
  · exact scrapCompany_tri env options none (.str url) hinv (fun h => h)

theorem discipline_state {s s₁ : Bool} {x : Event}
    (hx : discipline env options s x = some s₁) (hrun : x.isRunBrowser = false) : s₁ = s := by
  cases x with
  | runBrowser => cases hrun
  | browserClose b =>
    simp only [discipline] at hx
    split at hx
    · split at hx
      · cases hx; rfl
      · cases hx
    · cases hx
  | _ => cases hx; rfl

/-- A trace accepted for a caller who supplied a page starts no browser and
closes none. -/
theorem monitor_borrowed {p : Nat} (hpage : options.page = some p) :
    ∀ (t : List Event) (s s' : Bool), monitor (discipline env options) s t = some s' →
      ∀ e ∈ t, e.isRunBrowser = false ∧ e.isBrowserClose = false := by
  intro t
  induction t with
  | nil => intro _ _ _ e he; cases he
  | cons x t ih =>
    intro s s' h e he
    simp only [monitor] at h
    cases hx : discipline env options s x with
    | none => rw [hx] at h; cases h
    | some s₁ =>
      rw [hx] at h
      rcases List.mem_cons.mp he with rfl | he'
      · cases e with
        | runBrowser => simp [discipline, hpage] at hx
        | browserClose b =>
          simp only [discipline] at hx
          split at hx
          · simp [hpage] at hx
          · cases hx
        | _ => exact ⟨rfl, rfl⟩
      · exact ih s₁ s' h e he'

/-- In an accepted trace a browser is closed only after this run has started
one, and the browser closed is the one that was started. -/
theorem monitor_owned :
    ∀ (t : List Event) (s s' : Bool), monitor (discipline env options) s t = some s' →
      ∀ pre b post, t = pre ++ Event.browserClose b :: post →
        options.page = none ∧ env.runBrowser = .ok b ∧ (s = true ∨ Event.runBrowser ∈ pre) := by
  intro t
  induction t with
  | nil =>
    intro _ _ _ pre b post h
    cases pre <;> cases h
  | cons x t ih =>
    intro s s' h pre b post ht
    simp only [monitor] at h
    cases hx : discipline env options s x with
    | none => rw [hx] at h; cases h
    | some s₁ =>
      rw [hx] at h
      cases pre with
      | nil =>
        simp only [List.nil_append, List.cons.injEq] at ht
        obtain ⟨rfl, rfl⟩ := ht
        simp only [discipline] at hx
        split at hx
        · rename_i b' hrun
          split at hx
          · rename_i hc
            simp only [Bool.and_eq_true, Option.isNone_iff_eq_none, beq_iff_eq] at hc
            obtain ⟨⟨hnone, hs⟩, rfl⟩ := hc
            exact ⟨hnone, hrun, Or.inl hs⟩
          · cases hx
        · cases hx
      | cons y pre' =>
        simp only [List.cons_append, List.cons.injEq] at ht
        obtain ⟨rfl, rfl⟩ := ht
        obtain ⟨h₁, h₂, h₃⟩ := ih s₁ s' h pre' b post rfl
        refine ⟨h₁, h₂, ?_⟩
        rcases h₃ with h₃ | h₃
        · by_cases hy : x.isRunBrowser = true
          · cases x <;> simp_all [Event.isRunBrowser]
          · have := discipline_state env options hx (by simpa using hy)
            subst this
            exact Or.inl h₃
        · exact Or.inr (List.mem_cons_of_mem _ h₃)

end Ownership

/-! ## Results of the orchestrator -/

theorem refreshToken_ready (env : Env) (h : env.tokenReady) :
    (refreshToken env).result = .ok () ∧
    ∀ e ∈ (refreshToken env).trace, e = Event.init := by
  unfold refreshToken init tryCatch call liftE
  cases hexp : env.tokenExpired with
  | false => simp [pure]
  | true =>
    rcases h with h | h
    · rw [hexp] at h; cases h
    · simp [h]

/-- C1. For a URL that is not classified as a company or school page, with
`forcePeopleScraping` unset and a usable token: when the people API answers
with a message (a non-empty string) other than `Internal API server error`, the
call returns exactly `{error: message}`, and it starts no browser, creates no
page and invokes neither people extraction nor company extraction. -/
theorem api_error_message_is_returned (env : Env) (url : String) (options : Options)
    (answer : Obj) (message : String)
    (hurl : isCompanyOrSchoolPage (.str url) = .ok false)
    (hforce : options.forcePeopleScraping = false)
    (htoken : env.tokenReady)
    (hapi : env.peopleApi (.str url) = .ok answer)
    (hmsg : getField answer "message" = .str message)
    (hne : message ≠ "")
    (hother : message ≠ "Internal API server error") :
    (getCompanyOrPeopleDetails env url options).result
        = .ok (.obj [("error", .str message)]) ∧
    ∀ e ∈ (getCompanyOrPeopleDetails env url options).trace,
      e.isRunBrowser = false ∧ e.isCreatePage = false ∧
      e.isScrapPeopleProfile = false ∧ e.isScrapCompanyPage = false := by
  obtain ⟨hres, htr⟩ := refreshToken_ready env htoken
  unfold getCompanyOrPeopleDetails
  rw [bind_of_ok _ _ _ hres]
  simp only [bind, pure, liftE, call, hurl, fetchPeople, hforce, getPeopleData, hapi, hmsg,
    truthy, looseEqWord]
  simp [hne, hother]
  intro e he
  rcases he with he | rfl | rfl
  · rw [htr e he]
    exact ⟨rfl, rfl, rfl, rfl⟩
  · exact ⟨rfl, rfl, rfl, rfl⟩
  · exact ⟨rfl, rfl, rfl, rfl⟩

theorem api_error_message_is_returned_witness :
    (getCompanyOrPeopleDetails (sampleEnv sampleErrorAnswer) "https://www.linkedin.com/in/nobody/"
        ⟨none, false, false⟩).result = .ok (.obj [("error", .str "Invalid profile URL")]) ∧
    ∀ e ∈ (getCompanyOrPeopleDetails (sampleEnv sampleErrorAnswer)
        "https://www.linkedin.com/in/nobody/" ⟨none, false, false⟩).trace,
      e.isRunBrowser = false ∧ e.isCreatePage = false ∧
      e.isScrapPeopleProfile = false ∧ e.isScrapCompanyPage = false :=
  api_error_message_is_returned (sampleEnv sampleErrorAnswer) "https://www.linkedin.com/in/nobody/"
    ⟨none, false, false⟩ sampleErrorAnswer "Invalid profile URL" rfl rfl (Or.inl rfl) rfl rfl
    (by decide) (by decide)

/-- C3. Whatever the URL, the options and the outcome of every collaborator:
when the caller supplies `options.page` the run starts no browser and closes
none; and in every run a `browser.close()` happens only when the caller
supplied no page, after this run called `pup.runBrowser`, and on the very
handle that call returned. -/
theorem only_own_browser_is_closed (env : Env) (url : String) (options : Options) :
    (∀ p, options.page = some p →
      ∀ e ∈ (getCompanyOrPeopleDetails env url options).trace,
        e.isRunBrowser = false ∧ e.isBrowserClose = false) ∧
    (∀ pre b post,
      (getCompanyOrPeopleDetails env url options).trace = pre ++ Event.browserClose b :: post →
        options.page = none ∧ env.runBrowser = .ok b ∧ Event.runBrowser ∈ pre) := by
  obtain ⟨s', hacc, _⟩ := getCompanyOrPeopleDetails_tri env options url
  refine ⟨fun p hp => monitor_borrowed env options hp _ _ _ hacc, ?_⟩
  intro pre b post ht
  obtain ⟨h₁, h₂, h₃⟩ := monitor_owned env options _ _ _ hacc pre b post ht
  refine ⟨h₁, h₂, ?_⟩
  rcases h₃ with h₃ | h₃
  · cases h₃
  · exact h₃

theorem only_own_browser_is_closed_witness :
    (∀ e ∈ (getCompanyOrPeopleDetails (sampleFailingEnv samplePublicAnswer)
        "https://www.linkedin.com/in/ada/" ⟨some 7, false, false⟩).trace,
      e.isRunBrowser = false ∧ e.isBrowserClose = false) ∧
    (getCompanyOrPeopleDetails (sampleEnv samplePublicAnswer)
        "https://www.linkedin.com/in/ada/" ⟨none, false, false⟩).trace
      = [.log "Getting data from \"https://www.linkedin.com/in/ada/\"...",
         .getPeopleData (.str "https://www.linkedin.com/in/ada/"),
         .runBrowser, .createPage 1,
         .scrapCompanyPage 2 (.str "https://www.linkedin.com/company/1337")]
        ++ Event.browserClose 1 :: [] :=
  ⟨(only_own_browser_is_closed (sampleFailingEnv samplePublicAnswer)
      "https://www.linkedin.com/in/ada/" ⟨some 7, false, false⟩).1 7 rfl, rfl⟩

/-! ## Company and school pages -/

theorem refreshToken_sat (env : Env) {P : Event → Prop} (h : P Event.init) :
    Sat P (refreshToken env) (fun _ => True) := by
  unfold refreshToken init
  split
  · exact sat_tryCatch (sat_call h (fun _ _ => trivial)) (fun _ => sat_liftE (fun _ _ => trivial))
  · exact sat_pure trivial

theorem ensurePage_sat (env : Env) (browser page : Option Nat) {P : Event → Prop}
    (h₁ : P Event.runBrowser) (h₂ : ∀ b, P (Event.createPage b)) :
    Sat P (ensurePage env browser page) (fun _ => True) := by
  unfold ensurePage
  split
  · exact sat_pure trivial
  · refine sat_bind (Q := fun _ => True) (sat_call h₁ (fun _ _ => trivial)) ?_
    intro b _
    refine sat_bind (Q := fun _ => True) (sat_call (h₂ b) (fun _ _ => trivial)) ?_
    intro p _
    exact sat_pure trivial

theorem scrapCompany_sat (env : Env) (options : Options) (browser page : Option Nat)
    (peopleDetails : Option Obj) (url : JSVal) {P : Event → Prop}
    (h₁ : P Event.runBrowser) (h₂ : ∀ b, P (Event.createPage b))
    (h₃ : ∀ p, P (Event.scrapCompanyPage p url)) (h₄ : ∀ p, P (Event.logPageUrl p))
    (h₅ : ∀ p path, P (Event.screenshot p path)) (h₆ : ∀ b, P (Event.browserClose b)) :
    Sat P (scrapCompany env options browser page peopleDetails url) (fun _ => True) := by
  unfold scrapCompany
  refine sat_bind (ensurePage_sat env browser page h₁ h₂) ?_
  rintro ⟨browser', page'⟩ _
  refine sat_bind (Q := fun _ => True) (sat_tryCatch ?_ ?_) ?_
  · unfold scrapCompanyPage
    refine sat_bind (Q := fun _ => True) (sat_call (h₃ page') (fun _ _ => trivial)) ?_
    intro _ _
    exact sat_pure trivial
  · intro e
    refine sat_bind (Q := fun _ => True) (sat_call (h₄ page') (fun _ _ => trivial)) ?_
    intro _ _
    refine sat_bind (Q := fun _ => True) (sat_call (h₅ page' _) (fun _ _ => trivial)) ?_
    intro _ _
    exact sat_liftE (fun _ _ => trivial)
  · intro companyDetails _
    refine sat_bind (Q := fun _ => True) ?_ ?_
    · unfold closeUnlessBorrowed
      split
      · exact sat_pure trivial
      · split
        · exact sat_call (h₆ _) (fun _ _ => trivial)
        · exact sat_liftE (fun _ _ => trivial)
    · intro _ _
      split
      · exact sat_pure trivial
      · exact sat_pure trivial

theorem ensurePage_ok (env : Env) (browser page : Option Nat) (b p : Nat)
    (h : page = some p ∨
      (page = none ∧ env.runBrowser = .ok b ∧ env.createPage b = .ok p)) :
    ∃ b₁, (ensurePage env browser page).result = .ok (b₁, p) := by
  unfold ensurePage
  rcases h with rfl | ⟨rfl, hrun, hcreate⟩
  · exact ⟨browser, rfl⟩
  · refine ⟨some b, ?_⟩
    simp [bind, pure, call, hrun, hcreate]

/-- C4. For a URL classified as a company or school page, whatever the options
(`forcePeopleScraping` included) and whatever the collaborators do: the run
never calls the people API and never calls people extraction, and every company
extraction it makes is on the supplied URL; and when the token is usable and a
page is at hand (supplied by the caller, or created by a browser start that
succeeds), company extraction on the supplied URL is made. -/
theorem company_url_skips_people_lookup (env : Env) (url : String) (options : Options)
    (hurl : isCompanyOrSchoolPage (.str url) = .ok true) :
    (∀ e ∈ (getCompanyOrPeopleDetails env url options).trace,
      e.isGetPeopleData = false ∧ e.isScrapPeopleProfile = false ∧
      (e.isScrapCompanyPage = true → ∃ p, e = Event.scrapCompanyPage p (.str url))) ∧
    (∀ b p, env.tokenReady →
      (options.page = some p ∨
        (options.page = none ∧ env.runBrowser = .ok b ∧ env.createPage b = .ok p)) →
      Event.scrapCompanyPage p (.str url) ∈ (getCompanyOrPeopleDetails env url options).trace) := by
  have hmain : getCompanyOrPeopleDetails env url options =
      (refreshToken env >>= fun _ =>
        call (.log ("Getting data from \"" ++ url ++ "\"...")) (.ok ()) >>= fun _ =>
          scrapCompany env options none options.page none (.str url)) := by
    unfold getCompanyOrPeopleDetails
    simp [bind, pure, liftE, hurl]
  rw [hmain]
  constructor
  · refine (sat_bind (Q := fun _ => True) (R := fun _ => True)
      (refreshToken_sat env ⟨rfl, rfl, fun h => by cases h⟩) ?_).1
    intro _ _
    refine sat_bind (Q := fun _ => True)
      (sat_call ⟨rfl, rfl, fun h => by cases h⟩ (fun _ _ => trivial)) ?_
    intro _ _
    exact scrapCompany_sat env options none options.page none (.str url)
      ⟨rfl, rfl, fun h => by cases h⟩ (fun _ => ⟨rfl, rfl, fun h => by cases h⟩)
      (fun p => ⟨rfl, rfl, fun _ => ⟨p, rfl⟩⟩) (fun _ => ⟨rfl, rfl, fun h => by cases h⟩)
      (fun _ _ => ⟨rfl, rfl, fun h => by cases h⟩) (fun _ => ⟨rfl, rfl, fun h => by cases h⟩)
  · intro b p htoken hpage
    rw [bind_of_ok _ _ _ (refreshToken_ready env htoken).1]
    rw [bind_of_ok (call _ _) _ () rfl]
    obtain ⟨b₁, hens⟩ := ensurePage_ok env none options.page b p hpage
    unfold scrapCompany
    rw [bind_of_ok _ _ _ hens]
    refine List.mem_append_right _ (List.mem_append_right _ (List.mem_append_right _ ?_))
    refine mem_bind_left (mem_tryCatch_left ?_)
    unfold scrapCompanyPage
    exact mem_bind_left (List.mem_singleton.mpr rfl)

theorem company_url_skips_people_lookup_witness :
    (∀ e ∈ (getCompanyOrPeopleDetails (sampleEnv samplePublicAnswer)
        "https://www.linkedin.com/company/acme/" ⟨none, true, false⟩).trace,
      e.isGetPeopleData = false ∧ e.isScrapPeopleProfile = false ∧
      (e.isScrapCompanyPage = true →
        ∃ p, e = Event.scrapCompanyPage p (.str "https://www.linkedin.com/company/acme/"))) ∧
    Event.scrapCompanyPage 2 (.str "https://www.linkedin.com/company/acme/") ∈
      (getCompanyOrPeopleDetails (sampleEnv samplePublicAnswer)
        "https://www.linkedin.com/company/acme/" ⟨none, true, false⟩).trace :=
  ⟨(company_url_skips_people_lookup (sampleEnv samplePublicAnswer)
      "https://www.linkedin.com/company/acme/" ⟨none, true, false⟩ rfl).1,
   (company_url_skips_people_lookup (sampleEnv samplePublicAnswer)
      "https://www.linkedin.com/company/acme/" ⟨none, true, false⟩ rfl).2 1 2 (Or.inl rfl)
      (Or.inr ⟨rfl, rfl, rfl⟩)⟩

/-! ## Profiles answered by the API -/

theorem looseEqWord_primitive (v : JSVal) (w : String) (hprim : v.isPrimitive = true)
    (hne : v ≠ .str w) : looseEqWord v w = .ok false := by
  cases v with
  | str s =>
    have : s ≠ w := fun h => hne (by rw [h])
    simp [looseEqWord, this]
  | arr xs => cases hprim
  | obj fields => cases hprim
  | fn name => cases hprim
  | _ => rfl

theorem getField_setField_ne (o : Obj) (k k' : String) (v : JSVal) (h : k' ≠ k) :
    getField (setField o k v) k' = getField o k' := by
  induction o with
  | nil => simp [setField, getField, Ne.symm h]
  | cons x rest ih =>
    obtain ⟨k₀, v₀⟩ := x
    by_cases hk : k₀ = k
    · subst hk
      simp [setField, getField, Ne.symm h]
    · simp only [setField, hk, if_false, getField, ih]

theorem getField_setField_eq (o : Obj) (k : String) (v : JSVal) :
    getField (setField o k v) k = v := by
  induction o with
  | nil => simp [setField, getField]
  | cons x rest ih =>
    obtain ⟨k₀, v₀⟩ := x
    by_cases hk : k₀ = k
    · simp [setField, getField, hk]
    · simp [setField, getField, hk, ih]

/-- C7. For a URL that is not classified as a company or school page, with
`skipCompanyScraping` set, `forcePeopleScraping` unset and a usable token
(whether or not the caller supplied a page): when the people API answers with a
profile that carries no error message and whose `id` is a scalar different from
`'private'`, the call returns that profile object, on which it has written
`isPrivateProfile = false` and nothing else, and it starts no browser, creates
no page and invokes neither people extraction nor company extraction. -/
theorem public_profile_needs_no_browser (env : Env) (url : String) (options : Options)
    (answer : Obj)
    (hurl : isCompanyOrSchoolPage (.str url) = .ok false)
    (hskip : options.skipCompanyScraping = true)
    (hforce : options.forcePeopleScraping = false)
    (htoken : env.tokenReady)
    (hapi : env.peopleApi (.str url) = .ok answer)
    (hmsg : truthy (getField answer "message") = false)
    (hprim : (getField answer "id").isPrimitive = true)
    (hid : getField answer "id" ≠ .str "private") :
    (getCompanyOrPeopleDetails env url options).result
        = .ok (.obj (setField answer "isPrivateProfile" (.bool false))) ∧
    (∀ k, k ≠ "isPrivateProfile" →
      getField (setField answer "isPrivateProfile" (.bool false)) k = getField answer k) ∧
    ∀ e ∈ (getCompanyOrPeopleDetails env url options).trace,
      e.isRunBrowser = false ∧ e.isCreatePage = false ∧
      e.isScrapPeopleProfile = false ∧ e.isScrapCompanyPage = false := by
  obtain ⟨hres, htr⟩ := refreshToken_ready env htoken
  have hloose := looseEqWord_primitive _ "private" hprim hid
  refine ⟨?_, fun k hk => getField_setField_ne _ _ _ _ hk, ?_⟩
  · unfold getCompanyOrPeopleDetails
    rw [bind_of_ok _ _ _ hres]
    simp [bind, pure, liftE, call, hurl, fetchPeople, hforce, getPeopleData, hapi, hmsg,
      hloose, resolveCompany, hskip, closeOwned]
  · unfold getCompanyOrPeopleDetails
    rw [bind_of_ok _ _ _ hres]
    simp only [bind, pure, liftE, call, hurl, fetchPeople, hforce, getPeopleData, hapi, hmsg,
      hloose, resolveCompany, hskip, closeOwned]
    simp
    intro e he
    rcases he with he | rfl | rfl
    · rw [htr e he]
      exact ⟨rfl, rfl, rfl, rfl⟩
    · exact ⟨rfl, rfl, rfl, rfl⟩
    · exact ⟨rfl, rfl, rfl, rfl⟩

theorem public_profile_needs_no_browser_witness :
    (getCompanyOrPeopleDetails (sampleEnv samplePublicAnswer) "https://www.linkedin.com/in/ada/"
        ⟨none, false, true⟩).result
      = .ok (.obj (setField samplePublicAnswer "isPrivateProfile" (.bool false))) ∧
    (∀ k, k ≠ "isPrivateProfile" →
      getField (setField samplePublicAnswer "isPrivateProfile" (.bool false)) k
        = getField samplePublicAnswer k) ∧
    ∀ e ∈ (getCompanyOrPeopleDetails (sampleEnv samplePublicAnswer)
        "https://www.linkedin.com/in/ada/" ⟨none, false, true⟩).trace,
      e.isRunBrowser = false ∧ e.isCreatePage = false ∧
      e.isScrapPeopleProfile = false ∧ e.isScrapCompanyPage = false :=
  public_profile_needs_no_browser (sampleEnv samplePublicAnswer) "https://www.linkedin.com/in/ada/"
    ⟨none, false, true⟩ samplePublicAnswer rfl rfl rfl (Or.inl rfl) rfl rfl rfl
    (fun h => absurd (JSVal.str.inj h) (by decide))

/-! ## The classifier -/

theorem indexOfFrom_ne_neg_one (pat : List Char) :
    ∀ (s : List Char) (i : Nat), indexOfFrom pat s i ≠ -1 ↔ pat <:+: s := by
  intro s
  induction s with
  | nil =>
    intro i
    unfold indexOfFrom
    cases pat with
    | nil => simp
    | cons c cs => simp
  | cons c cs ih =>
    intro i
    unfold indexOfFrom
    by_cases h : pat.isPrefixOf (c :: cs) = true
    · rw [if_pos h]
      have hp : pat <+: c :: cs := List.isPrefixOf_iff_prefix.mp h
      constructor
      · intro _
        exact hp.isInfix
      · intro _
        omega
    · rw [if_neg h]
      rw [ih (i + 1), List.infix_cons_iff]
      constructor
      · intro hc
        exact Or.inr hc
      · rintro (hp | hc)
        · exact absurd (List.isPrefixOf_iff_prefix.mpr hp) h
        · exact hc

theorem strIndexOf_ne_neg_one (s pat : String) :
    strIndexOf s pat ≠ -1 ↔ pat.data <:+: s.data :=
  indexOfFrom_ne_neg_one pat.data s.data 0

/-- C10, as the code has it. For every string `url`, `isCompanyOrSchoolPage(url)`
raises nothing and is true if and only if `url` contains
`https://www.linkedin.com/company/` or `https://www.linkedin.com/school/` at
some position; in particular it is true of every `url` that begins with one of
the two. -/
theorem classifier_is_containment (url : String) :
    isCompanyOrSchoolPage (.str url) =
      .ok (decide ("https://www.linkedin.com/company/".data <:+: url.data ∨
                   "https://www.linkedin.com/school/".data <:+: url.data)) ∧
    (("https://www.linkedin.com/company/".data <+: url.data ∨
      "https://www.linkedin.com/school/".data <+: url.data) →
      isCompanyOrSchoolPage (.str url) = .ok true) := by
  have key : isCompanyOrSchoolPage (.str url) =
      .ok (decide ("https://www.linkedin.com/company/".data <:+: url.data ∨
                   "https://www.linkedin.com/school/".data <:+: url.data)) := by
    have h₁ := strIndexOf_ne_neg_one url "https://www.linkedin.com/company/"
    have h₂ := strIndexOf_ne_neg_one url "https://www.linkedin.com/school/"
    simp only [isCompanyOrSchoolPage, callIndexOf]
    by_cases hc : strIndexOf url "https://www.linkedin.com/company/" = -1
    · have n₁ : ¬ "https://www.linkedin.com/company/".data <:+: url.data :=
        fun h => (h₁.mpr h) hc
      by_cases hs : strIndexOf url "https://www.linkedin.com/school/" = -1
      · have n₂ : ¬ "https://www.linkedin.com/school/".data <:+: url.data :=
          fun h => (h₂.mpr h) hs
        simp [hc, hs, n₁, n₂]
      · simp [hc, hs, n₁, h₂.mp hs]
    · simp [hc, h₁.mp hc]
  refine ⟨key, ?_⟩
  intro h
  rw [key]
  rcases h with h | h
  · simp [h.isInfix]
  · simp [h.isInfix]

/-- C10, as stated, fails: a profile URL that holds a company URL in its query
string begins with neither of the two strings, and is classified as a company
or school page. -/
theorem classifier_accepts_inner_occurrence :
    isCompanyOrSchoolPage
        (.str "https://www.linkedin.com/in/ada/?next=https://www.linkedin.com/company/acme/")
      = .ok true ∧
    ¬ ("https://www.linkedin.com/company/".data <+:
        "https://www.linkedin.com/in/ada/?next=https://www.linkedin.com/company/acme/".data) ∧
    ¬ ("https://www.linkedin.com/school/".data <+:
        "https://www.linkedin.com/in/ada/?next=https://www.linkedin.com/company/acme/".data) :=
  ⟨rfl, by decide, by decide⟩

/-! ## Numeric fields of a company page -/

/-- C5 at its two examples, and where it fails: the replacement of `','` by
`''` removes the first separator only, so that with two separators the
conversion stops at the second one and `1,234,567` is read as `1234`. -/
theorem second_separator_is_kept :
    parseFollowers "1,234 followers" = .num 1234 ∧
    parseMembers "See all 5,000 employees on LinkedIn" = .num 5000 ∧
    strTrim (strReplace (strReplace "1,234,567 followers" "followers" "") "," "") = "1234,567" ∧
    parseFollowers "1,234,567 followers" = .num 1234 ∧
    parseMembers "See all 1,234,567 employees on LinkedIn" = .num 1234 ∧
    getField (companyDetailsOf { sampleCompanyPage with followersCount := "1,234,567 followers" })
      "followers" = .num 1234 :=
  ⟨rfl, rfl, rfl, rfl, rfl, rfl⟩

/-! ## Profiles read by people extraction -/

/-- The run on a URL that is not a company or school page, the token being
usable: the calls of the token renewal and the log line, then lines 41-108. -/
theorem run_of_profile_url (env : Env) (url : String) (options : Options)
    (hurl : isCompanyOrSchoolPage (.str url) = .ok false) (htoken : env.tokenReady) :
    getCompanyOrPeopleDetails env url options =
      ⟨(refreshToken env).trace ++
        (Event.log ("Getting data from \"" ++ url ++ "\"...") :: (profileRun env url options).trace),
       (profileRun env url options).result⟩ := by
  unfold getCompanyOrPeopleDetails profileRun
  rw [bind_of_ok _ _ _ (refreshToken_ready env htoken).1]
  rw [bind_of_ok (call _ _) _ () rfl]
  simp [bind, pure, liftE, call, hurl]

/-- Whatever page people extraction reads, the object it builds has the array
of experiences as `positions`, so that `positions['values']` is the method
`Array.prototype.values`, its element `0` is `undefined`, and line 75 raises a
`TypeError`. -/
theorem companyIdOf_scraped (pg : ProfilePage) (pd : Obj) (h : peopleDetailsOf pg = .ok pd) :
    companyIdOf pd = .error (.typeError "Cannot read property company of undefined") := by
  unfold peopleDetailsOf at h
  split at h
  · cases h
  · cases h
    rfl

theorem getField_scraped_flag (pg : ProfilePage) (pd : Obj) (h : peopleDetailsOf pg = .ok pd) :
    hasField pd "isPrivateProfile" = false ∧ getField pd "isPrivateProfile" = .undefined := by
  unfold peopleDetailsOf at h
  split at h
  · cases h
  · cases h
    exact ⟨rfl, rfl⟩

theorem scrapeProfile_inv (env : Env) (url : JSVal) (options : Options) (st : Step Fetched)
    (h : (scrapeProfile env url options).result = .ok st) :
    ∃ b p pg pd, st = .next ⟨b, some p, pd⟩ ∧ env.profilePage p url = .ok pg ∧
      peopleDetailsOf pg = .ok pd ∧
      Event.scrapPeopleProfile p url ∈ (scrapeProfile env url options).trace := by
  unfold scrapeProfile at h ⊢
  obtain ⟨⟨b, p⟩, h₁, h₂, ht₁⟩ := bind_ok_inv h
  obtain ⟨pd, h₃, h₄, ht₂⟩ := bind_ok_inv h₂
  unfold scrapPeopleProfile at h₃
  obtain ⟨pg, h₅, h₆, ht₃⟩ := bind_ok_inv h₃
  cases h₄
  refine ⟨b, p, pg, pd, rfl, h₅, h₆, ?_⟩
  rw [ht₁]
  refine List.mem_append_right _ (mem_bind_left ?_)
  unfold scrapPeopleProfile
  exact mem_bind_left (List.mem_singleton.mpr rfl)

theorem resolveCompany_scraped (env : Env) (options : Options) (f : Fetched) (pg : ProfilePage)
    (hskip : options.skipCompanyScraping = false)
    (h : peopleDetailsOf pg = .ok f.peopleDetails) :
    resolveCompany env options f =
      ⟨[], .error (.typeError "Cannot read property company of undefined")⟩ := by
  unfold resolveCompany
  simp [hskip, bind, liftE, companyIdOf_scraped pg _ h]

theorem scrapeProfile_sat (env : Env) (url : JSVal) (options : Options) {P : Event → Prop}
    (h₁ : P Event.runBrowser) (h₂ : ∀ b, P (Event.createPage b))
    (h₄ : ∀ p u, P (Event.scrapPeopleProfile p u)) :
    Sat P (scrapeProfile env url options) (fun _ => True) := by
  unfold scrapeProfile
  refine sat_bind (ensurePage_sat env none options.page h₁ h₂) ?_
  rintro ⟨b, p⟩ _
  refine sat_bind (Q := fun _ => True) ?_ ?_
  · unfold scrapPeopleProfile
    refine sat_bind (Q := fun _ => True) (sat_call (h₄ p url) (fun _ _ => trivial)) ?_
    intro _ _
    exact sat_liftE (fun _ _ => trivial)
  · intro _ _
    exact sat_pure trivial

theorem fetchPeople_sat (env : Env) (url : JSVal) (options : Options) {P : Event → Prop}
    (h₁ : P Event.runBrowser) (h₂ : ∀ b, P (Event.createPage b))
    (h₃ : ∀ u, P (Event.getPeopleData u)) (h₄ : ∀ p u, P (Event.scrapPeopleProfile p u)) :
    Sat P (fetchPeople env url options) (fun _ => True) := by
  unfold fetchPeople
  split
  · exact scrapeProfile_sat env url options h₁ h₂ h₄
  · unfold getPeopleData
    refine sat_bind (Q := fun _ => True) (sat_call (h₃ url) (fun _ _ => trivial)) ?_
    intro pd _
    dsimp only
    refine sat_bind (Q := fun _ => True) ?_ ?_
    · split
      · exact sat_liftE (fun _ _ => trivial)
      · exact sat_pure trivial
    · intro internal _
      split
      · exact sat_pure trivial
      · refine sat_bind (Q := fun _ => True) (sat_liftE (fun _ _ => trivial)) ?_
        intro isPrivate _
        split
        · exact scrapeProfile_sat env url options h₁ h₂ h₄
        · exact sat_pure trivial

/-- C8, where it fails. For a URL that is not classified as a company or
school page, with `skipCompanyScraping` unset and a usable token: whenever the
profile in hand after lines 41-65 is one built by people extraction (forced, or
as fallback) from any rendered page, the run raises the `TypeError` of line 75
and makes no company extraction, whatever link `currentCompany` holds. -/
theorem scraped_profile_raises_before_company (env : Env) (url : String) (options : Options)
    (f : Fetched) (pg : ProfilePage)
    (hurl : isCompanyOrSchoolPage (.str url) = .ok false)
    (hskip : options.skipCompanyScraping = false)
    (htoken : env.tokenReady)
    (hf : (fetchPeople env (.str url) options).result = .ok (.next f))
    (hscr : peopleDetailsOf pg = .ok f.peopleDetails) :
    (getCompanyOrPeopleDetails env url options).result
        = .error (.typeError "Cannot read property company of undefined") ∧
    ∀ e ∈ (getCompanyOrPeopleDetails env url options).trace, e.isScrapCompanyPage = false := by
  rw [run_of_profile_url env url options hurl htoken]
  unfold profileRun
  rw [bind_of_ok _ _ _ hf]
  simp only [resolveCompany_scraped env options f pg hskip hscr]
  constructor
  · rfl
  · intro e he
    simp only [List.mem_append, List.mem_cons] at he
    rcases he with he | rfl | he | he
    · rw [(refreshToken_ready env htoken).2 e he]
      rfl
    · rfl
    · exact (fetchPeople_sat env (.str url) options (P := fun e => e.isScrapCompanyPage = false)
        rfl (fun _ => rfl) (fun _ => rfl) (fun _ _ => rfl)).1 e he
    · simp [bind] at he

theorem scraped_profile_raises_before_company_witness :
    getField ((peopleDetailsOf sampleProfilePage).toOption.getD []) "currentCompany"
      = .obj [("companyName", .str "Acme"),
              ("linkedinUrl", .str "https://www.linkedin.com/company/acme/")] ∧
    (getCompanyOrPeopleDetails (sampleEnv samplePublicAnswer) "https://www.linkedin.com/in/ada/"
        ⟨none, true, false⟩).result
      = .error (.typeError "Cannot read property company of undefined") ∧
    ∀ e ∈ (getCompanyOrPeopleDetails (sampleEnv samplePublicAnswer)
        "https://www.linkedin.com/in/ada/" ⟨none, true, false⟩).trace,
      e.isScrapCompanyPage = false :=
  ⟨rfl, scraped_profile_raises_before_company (sampleEnv samplePublicAnswer)
    "https://www.linkedin.com/in/ada/" ⟨none, true, false⟩
    ⟨some 1, some 2, (peopleDetailsOf sampleProfilePage).toOption.getD []⟩ sampleProfilePage
    rfl rfl (Or.inl rfl) rfl rfl⟩

/-- C9, where it fails. The token is unexpired and every collaborator succeeds:
the API answers with a private profile, the browser starts, the page is
created, people extraction reads a profile. The run then raises the `TypeError`
of line 75 although company extraction was never invoked; no screenshot is
written and the browser started is not closed. -/
theorem exception_without_company_extraction :
    (sampleEnv samplePrivateAnswer).tokenExpired = false ∧
    (getCompanyOrPeopleDetails (sampleEnv samplePrivateAnswer) "https://www.linkedin.com/in/ada/"
        ⟨none, false, false⟩).result
      = .error (.typeError "Cannot read property company of undefined") ∧
    (getCompanyOrPeopleDetails (sampleEnv samplePrivateAnswer) "https://www.linkedin.com/in/ada/"
        ⟨none, false, false⟩).trace
      = [.log "Getting data from \"https://www.linkedin.com/in/ada/\"...",
         .getPeopleData (.str "https://www.linkedin.com/in/ada/"),
         .runBrowser, .createPage 1,
         .scrapPeopleProfile 2 (.str "https://www.linkedin.com/in/ada/")] :=
  ⟨rfl, rfl, rfl⟩

/-! ## What a run that returns has done -/

/-- A run that returns a value has run company extraction directly (company or
school page) or lines 41-108 (any other URL), after the token renewal and the
log line. -/
theorem run_ok_inv (env : Env) (url : String) (options : Options) (r : JSVal)
    (hret : (getCompanyOrPeopleDetails env url options).result = .ok r) :
    ∃ pre,
      (isCompanyOrSchoolPage (.str url) = .ok true ∧
        (scrapCompany env options none options.page none (.str url)).result = .ok r ∧
        (getCompanyOrPeopleDetails env url options).trace =
          pre ++ (scrapCompany env options none options.page none (.str url)).trace) ∨
      (isCompanyOrSchoolPage (.str url) = .ok false ∧
        (profileRun env url options).result = .ok r ∧
        (getCompanyOrPeopleDetails env url options).trace =
          pre ++ (profileRun env url options).trace) := by
  unfold getCompanyOrPeopleDetails at hret ⊢
  obtain ⟨_, _, h₂, t₁⟩ := bind_ok_inv hret
  obtain ⟨_, _, h₄, t₂⟩ := bind_ok_inv h₂
  obtain ⟨isCompany, h₅, h₆, t₃⟩ := bind_ok_inv h₄
  rw [t₁, t₂, t₃]
  refine ⟨(refreshToken env).trace ++
    (call (.log ("Getting data from \"" ++ url ++ "\"...")) (.ok ())).trace, ?_⟩
  cases isCompany with
  | true =>
    left
    refine ⟨h₅, h₆, ?_⟩
    simp [liftE]
  | false =>
    right
    refine ⟨h₅, h₆, ?_⟩
    simp [liftE, profileRun]

theorem tryCatch_rethrow_inv {α : Type} {body : M α} {handler : Exn → M α} {a : α}
    (hh : ∀ e x, (handler e).result ≠ .ok x)
    (h : (tryCatch body handler).result = .ok a) :
    body.result = .ok a ∧ (tryCatch body handler).trace = body.trace := by
  unfold tryCatch at h ⊢
  cases hb : body.result with
  | ok x =>
    rw [hb] at h
    exact ⟨h, rfl⟩
  | error e =>
    rw [hb] at h
    exact absurd h (hh e a)

/-- A company extraction that returns: the object returned is the one built
from the rendered company page, alone or attached to the profile. -/
theorem scrapCompany_inv (env : Env) (options : Options) (browser page : Option Nat)
    (peopleDetails : Option Obj) (url : JSVal) (r : JSVal)
    (h : (scrapCompany env options browser page peopleDetails url).result = .ok r) :
    ∃ p cp, env.companyPage p url = .ok cp ∧
      Event.scrapCompanyPage p url ∈
        (scrapCompany env options browser page peopleDetails url).trace ∧
      r = (match peopleDetails with
        | some pd => JSVal.obj (setField pd "company" (.obj (companyDetailsOf cp)))
        | none => JSVal.obj (companyDetailsOf cp)) := by
  unfold scrapCompany at h ⊢
  obtain ⟨⟨b, p⟩, _, h₂, t₁⟩ := bind_ok_inv h
  obtain ⟨c, h₃, h₄, t₂⟩ := bind_ok_inv h₂
  obtain ⟨_, _, h₆, _⟩ := bind_ok_inv h₄
  have hh : ∀ (e : Exn) (x : Obj),
      (call (.logPageUrl p) (.ok ()) >>= fun _ =>
        call (.screenshot p "error.png") (env.screenshot p "error.png") >>= fun _ =>
          (liftE (.error e) : M Obj)).result ≠ .ok x := by
    intro e x hx
    obtain ⟨_, _, hx₂, _⟩ := bind_ok_inv hx
    obtain ⟨_, _, hx₃, _⟩ := bind_ok_inv hx₂
    cases hx₃
  obtain ⟨h₇, t₃⟩ := tryCatch_rethrow_inv hh h₃
  unfold scrapCompanyPage at h₇ t₃
  obtain ⟨cp, h₈, h₉, t₄⟩ := bind_ok_inv h₇
  cases h₉
  refine ⟨p, cp, h₈, ?_, ?_⟩
  · rw [t₁, t₂]
    refine List.mem_append_right _ (List.mem_append_left _ ?_)
    unfold scrapCompanyPage
    rw [t₃, t₄]
    exact List.mem_append_left _ (List.mem_singleton.mpr rfl)
  · cases peopleDetails with
    | some pd => cases h₆; rfl
    | none => cases h₆; rfl

/-- Lines 41-108 when the profile `f` was fetched and the company page URL `u`
resolved: what remains is company extraction on `u`. -/
theorem profileRun_of_resolved (env : Env) (url : String) (options : Options) (f : Fetched)
    (u : JSVal)
    (hf : (fetchPeople env (.str url) options).result = .ok (.next f))
    (hr : (resolveCompany env options f).result = .ok (.next (f, u))) :
    profileRun env url options =
      ⟨(fetchPeople env (.str url) options).trace ++
        ((resolveCompany env options f).trace ++
          (scrapCompany env options f.browser f.page (some f.peopleDetails) u).trace),
       (scrapCompany env options f.browser f.page (some f.peopleDetails) u).result⟩ := by
  unfold profileRun
  rw [bind_of_ok _ _ _ hf]
  simp only
  rw [bind_of_ok _ _ _ hr]

/-- C6. Of a run that returns the value `r`. When the supplied URL is a company
or school page, `r` is exactly the object company extraction built on that URL:
it has the twelve company fields and no field `company`. When the URL is not
one, the profile `f.peopleDetails` was obtained by lines 41-65 and a company
page URL `u` was resolved for it, `r` is that profile with the field `company`
set to the object company extraction built on `u`, every other field of the
profile being unchanged. -/
theorem returned_object_is_the_merge (env : Env) (url : String) (options : Options) (r : JSVal)
    (hret : (getCompanyOrPeopleDetails env url options).result = .ok r) :
    (isCompanyOrSchoolPage (.str url) = .ok true →
      ∃ p cp, Event.scrapCompanyPage p (.str url) ∈ (getCompanyOrPeopleDetails env url options).trace ∧
        env.companyPage p (.str url) = .ok cp ∧
        r = .obj (companyDetailsOf cp) ∧
        hasField (companyDetailsOf cp) "company" = false ∧
        (companyDetailsOf cp).map Prod.fst =
          ["name", "industry", "description", "website", "headquarters", "foundedYear",
           "companyType", "companySize", "specialties", "followers", "membersOnLinkedin",
           "linkedinUrl"]) ∧
    (∀ f u, isCompanyOrSchoolPage (.str url) = .ok false →
      (fetchPeople env (.str url) options).result = .ok (.next f) →
      (resolveCompany env options f).result = .ok (.next (f, u)) →
      ∃ p cp, Event.scrapCompanyPage p u ∈ (getCompanyOrPeopleDetails env url options).trace ∧
        env.companyPage p u = .ok cp ∧
        r = .obj (setField f.peopleDetails "company" (.obj (companyDetailsOf cp))) ∧
        getField (setField f.peopleDetails "company" (.obj (companyDetailsOf cp))) "company"
          = .obj (companyDetailsOf cp) ∧
        ∀ k, k ≠ "company" →
          getField (setField f.peopleDetails "company" (.obj (companyDetailsOf cp))) k
            = getField f.peopleDetails k) := by
  obtain ⟨pre, h | h⟩ := run_ok_inv env url options r hret
  · obtain ⟨hurl, hsc, ht⟩ := h
    constructor
    · intro _
      obtain ⟨p, cp, hcp, hmem, hr⟩ := scrapCompany_inv env options _ _ _ _ r hsc
      refine ⟨p, cp, ?_, hcp, hr, rfl, rfl⟩
      rw [ht]
      exact List.mem_append_right _ hmem
    · intro f u hurl' _ _
      rw [hurl] at hurl'
      cases hurl'
  · obtain ⟨hurl, hpr, ht⟩ := h
    constructor
    · intro hurl'
      rw [hurl] at hurl'
      cases hurl'
    · intro f u _ hf hr
      rw [profileRun_of_resolved env url options f u hf hr] at hpr ht
      obtain ⟨p, cp, hcp, hmem, hres⟩ := scrapCompany_inv env options _ _ _ _ r hpr
      refine ⟨p, cp, ?_, hcp, hres, getField_setField_eq _ _ _,
        fun k hk => getField_setField_ne _ _ _ _ hk⟩
      rw [ht]
      exact List.mem_append_right _ (List.mem_append_right _ (List.mem_append_right _ hmem))

theorem returned_object_is_the_merge_witness :
    (∃ p cp, Event.scrapCompanyPage p (.str "https://www.linkedin.com/school/mit/") ∈
        (getCompanyOrPeopleDetails (sampleEnv samplePublicAnswer)
          "https://www.linkedin.com/school/mit/" ⟨none, false, false⟩).trace ∧
      (sampleEnv samplePublicAnswer).companyPage p (.str "https://www.linkedin.com/school/mit/")
        = .ok cp ∧
      JSVal.obj (companyDetailsOf sampleCompanyPage) = .obj (companyDetailsOf cp) ∧
      hasField (companyDetailsOf cp) "company" = false ∧
      (companyDetailsOf cp).map Prod.fst =
        ["name", "industry", "description", "website", "headquarters", "foundedYear",
         "companyType", "companySize", "specialties", "followers", "membersOnLinkedin",
         "linkedinUrl"]) ∧
    (∃ p cp, Event.scrapCompanyPage p (.str "https://www.linkedin.com/company/1337") ∈
        (getCompanyOrPeopleDetails (sampleEnv samplePublicAnswer)
          "https://www.linkedin.com/in/ada/" ⟨none, false, false⟩).trace ∧
      (sampleEnv samplePublicAnswer).companyPage p (.str "https://www.linkedin.com/company/1337")
        = .ok cp ∧
      JSVal.obj (setField (setField samplePublicAnswer "isPrivateProfile" (.bool false))
          "company" (.obj (companyDetailsOf sampleCompanyPage)))
        = .obj (setField (setField samplePublicAnswer "isPrivateProfile" (.bool false))
          "company" (.obj (companyDetailsOf cp))) ∧
      getField (setField (setField samplePublicAnswer "isPrivateProfile" (.bool false))
          "company" (.obj (companyDetailsOf cp))) "company" = .obj (companyDetailsOf cp) ∧
      ∀ k, k ≠ "company" →
        getField (setField (setField samplePublicAnswer "isPrivateProfile" (.bool false))
            "company" (.obj (companyDetailsOf cp))) k
          = getField (setField samplePublicAnswer "isPrivateProfile" (.bool false)) k) :=
  ⟨(returned_object_is_the_merge (sampleEnv samplePublicAnswer)
      "https://www.linkedin.com/school/mit/" ⟨none, false, false⟩
      (.obj (companyDetailsOf sampleCompanyPage)) rfl).1 rfl,
   (returned_object_is_the_merge (sampleEnv samplePublicAnswer)
      "https://www.linkedin.com/in/ada/" ⟨none, false, false⟩
      (.obj (setField (setField samplePublicAnswer "isPrivateProfile" (.bool false))
        "company" (.obj (companyDetailsOf sampleCompanyPage)))) rfl).2
      ⟨none, none, setField samplePublicAnswer "isPrivateProfile" (.bool false)⟩
      (.str "https://www.linkedin.com/company/1337") rfl rfl rfl⟩

/-! ## Private profiles -/

/-- Lines 49-64 when the API answers with a private profile: the flag is
written on the API object, and people extraction then replaces that object. -/
theorem fetchPeople_private (env : Env) (url : JSVal) (options : Options) (answer : Obj)
    (hforce : options.forcePeopleScraping = false)
    (hapi : env.peopleApi url = .ok answer)
    (hmsg : truthy (getField answer "message") = false)
    (hid : getField answer "id" = .str "private") :
    fetchPeople env url options =
      ⟨Event.getPeopleData url :: (scrapeProfile env url options).trace,
       (scrapeProfile env url options).result⟩ := by
  unfold fetchPeople
  simp [hforce, getPeopleData, hapi, hmsg, hid, looseEqWord, bind, pure, call, liftE]

/-- C2, where it fails. For a URL that is not classified as a company or
school page, with `forcePeopleScraping` unset: when the people API answers with
a profile whose `id` is `'private'`, every run that returns a value has
`skipCompanyScraping` set, has run people extraction on that URL, and returns
exactly the object people extraction built, which has no field
`isPrivateProfile` at all: reading it gives `undefined`, not `true`. (With
`skipCompanyScraping` unset the run raises the `TypeError` of line 75.) -/
theorem private_profile_result_has_no_flag (env : Env) (url : String) (options : Options)
    (answer : Obj) (r : JSVal)
    (hurl : isCompanyOrSchoolPage (.str url) = .ok false)
    (hforce : options.forcePeopleScraping = false)
    (hapi : env.peopleApi (.str url) = .ok answer)
    (hmsg : truthy (getField answer "message") = false)
    (hid : getField answer "id" = .str "private")
    (hret : (getCompanyOrPeopleDetails env url options).result = .ok r) :
    options.skipCompanyScraping = true ∧
    ∃ p pg pd,
      Event.scrapPeopleProfile p (.str url) ∈ (getCompanyOrPeopleDetails env url options).trace ∧
      env.profilePage p (.str url) = .ok pg ∧
      peopleDetailsOf pg = .ok pd ∧
      r = .obj pd ∧
      hasField pd "isPrivateProfile" = false ∧
      getField pd "isPrivateProfile" = .undefined := by
  obtain ⟨pre, h | h⟩ := run_ok_inv env url options r hret
  · rw [hurl] at h
    cases h.1
  · obtain ⟨_, hpr, ht⟩ := h
    unfold profileRun at hpr ht
    obtain ⟨st, hst, hrest, ht₂⟩ := bind_ok_inv hpr
    have hfetch := fetchPeople_private env (.str url) options answer hforce hapi hmsg hid
    have hst' : (scrapeProfile env (.str url) options).result = .ok st := by
      rw [hfetch] at hst
      exact hst
    obtain ⟨b, p, pg, pd, rfl, hpg, hpd, hmem⟩ := scrapeProfile_inv env (.str url) options st hst'
    simp only at hrest
    obtain ⟨st₂, hst₂, hrest₂, _⟩ := bind_ok_inv hrest
    have hmem' : Event.scrapPeopleProfile p (.str url) ∈
        (getCompanyOrPeopleDetails env url options).trace := by
      rw [ht, ht₂, hfetch]
      exact List.mem_append_right _
        (List.mem_append_left _ (List.mem_cons_of_mem _ hmem))
    cases hskip : options.skipCompanyScraping with
    | false =>
      rw [resolveCompany_scraped env options ⟨b, some p, pd⟩ pg hskip hpd] at hst₂
      cases hst₂
    | true =>
      refine ⟨rfl, p, pg, pd, hmem', hpg, hpd, ?_, getField_scraped_flag pg pd hpd⟩
      unfold resolveCompany at hst₂
      simp only [hskip, if_true] at hst₂
      obtain ⟨_, _, hst₃, _⟩ := bind_ok_inv hst₂
      cases hst₃
      cases hrest₂
      rfl

theorem private_profile_result_has_no_flag_witness :
    (getCompanyOrPeopleDetails (sampleEnv samplePrivateAnswer) "https://www.linkedin.com/in/ada/"
        ⟨none, false, true⟩).result
      = .ok (.obj [("firstName", .str "Ada"), ("lastName", .str "Lovelace"),
          ("headline", .str "Engineer"), ("location", .str "London"), ("summary", .str ""),
          ("currentCompany", .obj [("companyName", .str "Acme"),
            ("linkedinUrl", .str "https://www.linkedin.com/company/acme/")]),
          ("school", .null), ("connectionsNumber", .num 500),
          ("positions", .arr [.obj [("companyName", .str "Acme"),
            ("linkedinUrl", .str "https://www.linkedin.com/company/acme/")]]),
          ("relatedPeople", .arr []),
          ("linkedinUrl", .str "https://www.linkedin.com/in/ada/")]) ∧
    ∃ p pg pd,
      Event.scrapPeopleProfile p (.str "https://www.linkedin.com/in/ada/") ∈
        (getCompanyOrPeopleDetails (sampleEnv samplePrivateAnswer)
          "https://www.linkedin.com/in/ada/" ⟨none, false, true⟩).trace ∧
      (sampleEnv samplePrivateAnswer).profilePage p (.str "https://www.linkedin.com/in/ada/")
        = .ok pg ∧
      peopleDetailsOf pg = .ok pd ∧
      JSVal.obj ((peopleDetailsOf sampleProfilePage).toOption.getD []) = .obj pd ∧
      hasField pd "isPrivateProfile" = false ∧
      getField pd "isPrivateProfile" = .undefined :=
  ⟨rfl, (private_profile_result_has_no_flag (sampleEnv samplePrivateAnswer)
    "https://www.linkedin.com/in/ada/" ⟨none, false, true⟩ samplePrivateAnswer
    (.obj ((peopleDetailsOf sampleProfilePage).toOption.getD [])) rfl rfl rfl rfl rfl rfl).2⟩

/-! ## Failures of company extraction -/

/-- When company extraction is reached with the page `p` and raises `e`, the
page URL is logged, the screenshot `error.png` is taken, and `e` itself is
raised again, the browser staying open. -/
theorem company_failure_is_rethrown (env : Env) (options : Options) (browser page : Option Nat)
    (peopleDetails : Option Obj) (url : JSVal) (b : Option Nat) (p : Nat) (e : Exn)
    (hpage : (ensurePage env browser page).result = .ok (b, p))
    (hfail : env.companyPage p url = .error e)
    (hshot : env.screenshot p "error.png" = .ok ()) :
    scrapCompany env options browser page peopleDetails url =
      ⟨(ensurePage env browser page).trace ++
        [Event.scrapCompanyPage p url, Event.logPageUrl p, Event.screenshot p "error.png"],
       .error e⟩ := by
  unfold scrapCompany
  rw [bind_of_ok _ _ _ hpage]
  simp [tryCatch, scrapCompanyPage, bind, call, liftE, hfail, hshot]

end Linkedin

